import Mathlib

/-!
# twitter-scraper: request pipeline and guest-token lifecycle

A shallow embedding of `api.go` (package `twitterscraper`): the HTTP error value,
`RequestAPI`, `prepareRequest`, `setGuestToken`, `setAuthorizationHeader`,
`setCSRFToken`, `handleResponse`, `GetGuestToken` and `ClearGuestToken`, and of the
conversation normalizer exercised by the package's tests, followed by the
properties proved about them.

Conventions of the embedding

* A Go `error` result is an `Option Err` (`none` is `nil`).
* The scraper is passed explicitly; every operation returns the new scraper.
* `time.Time` is an `Int` count of nanoseconds; the clock reading `now` is an
  argument of the operation that calls `time.Now()`.
* `s.client.Do` is one transport round trip.  The transport is an arbitrary
  function of the calls made so far and of the request, so it may answer the
  same request differently on different calls.  The calls are recorded in
  `Client.calls`, oldest first.
* `s.wg.Wait()` and `delayRequest` only space requests in time; they change no
  field used here and are left out.
-/

namespace TwitterScraper

/-! ## Constants -/

/-- The built-in `bearerToken` constant of `api.go`. -/
def bearerToken : String :=
  "AAAAAAAAAAAAAAAAAAAAAPYXBAAAAAAACLXUNDekMxqa8h%2F40K4moUkGsoc%3DTYfbDKbT3jJPCEVnMYqilB28NHfOPqkca3qaAxGfsyKCs0wRbw"

/-- URL of the guest activation endpoint used by `GetGuestToken`. -/
def activateURL : String := "https://api.x.com/1.1/guest/activate.json"

/-- The constant `time.Hour * 3`, in nanoseconds. -/
def threeHours : Int := 3 * 3600 * 1000000000

/-! ## HTTP values -/

/-- An `http.Header`: a map from header name to its list of values.  Keys are
compared as written (every key the source uses is already in canonical form,
up to the spelling of `X-CSRF-Token`). -/
abbrev HttpHeader := List (String × List String)

/-- Go `Header.Get`: the first value stored under `key`, or `""`. -/
def HttpHeader.Get (h : HttpHeader) (key : String) : String :=
  match h.lookup key with
  | some (v :: _) => v
  | _ => ""

/-- Go `Header.Set`: replaces whatever is stored under `key` by the single value. -/
def HttpHeader.Set (h : HttpHeader) (key value : String) : HttpHeader :=
  (key, [value]) :: h.filter (fun kv => kv.1 != key)

/-- An outbound `http.Request`, as far as the source touches it. -/
structure Request where
  Method : String
  URL : String
  Header : HttpHeader
deriving DecidableEq, Repr

/-- An `http.Response`.  `Body` is the outcome of `io.ReadAll(resp.Body)`: the
content, or the read error. -/
structure Response where
  StatusCode : Int
  Status : String
  Header : HttpHeader
  Body : Except String String

/-- Go `http.NewRequest(method, url, nil)` for the constant, well-formed
arguments the source passes: a request without headers. -/
def NewRequest (method url : String) : Request :=
  { Method := method, URL := url, Header := [] }

/-- A cookie of the client's jar. -/
structure Cookie where
  Name : String
  Value : String
deriving DecidableEq, Repr

/-- The transport behind `s.client`: given the calls made so far and the request,
it fails with a transport error or answers with a response. -/
abbrev Transport := List Request → Request → Except String Response

/-- The `http.Client` of the scraper: the cookies its jar returns for a URL and
the record of the transport calls made through it, oldest first. -/
structure Client where
  Jar : String → List Cookie
  calls : List Request

/-- Go `client.Do(req)`: one transport call, recorded in `calls`. -/
def Client.Do (tr : Transport) (c : Client) (req : Request) :
    Client × Except String Response :=
  ({ c with calls := c.calls ++ [req] }, tr c.calls req)

/-! ## Errors -/

/-- Go `fmt.Sprintf` restricted to the `%s` verb with string operands, the only
verb the source uses. -/
def Sprintf.go : List Char → List String → List Char
  | [], _ => []
  | [c], _ => [c]
  | c :: d :: fmt, args =>
    if c = '%' ∧ d = 's' then
      match args with
      | a :: rest => a.data ++ Sprintf.go fmt rest
      | [] => "%!s(MISSING)".data ++ Sprintf.go fmt []
    else c :: Sprintf.go (d :: fmt) args

/-- Go `fmt.Sprintf(format, args...)`, see `Sprintf.go`. -/
def Sprintf (format : String) (args : List String) : String :=
  ⟨Sprintf.go format.data args⟩

/-- The `HTTPError` struct: returned when the API answers with a non-200 status. -/
structure HTTPError where
  StatusCode : Int
  Status : String
  Body : String
deriving DecidableEq, Repr

/-- Method `(*HTTPError).Error`. -/
def HTTPError.Error (e : HTTPError) : String :=
  Sprintf "response status %s: %s" [e.Status, e.Body]

/-- The dynamic kinds of `error` values the source produces or passes on. -/
inductive Err where
  /-- A `*HTTPError`. -/
  | http (e : HTTPError)
  /-- The error returned by `s.client.Do`. -/
  | transport (msg : String)
  /-- The error returned by `io.ReadAll`. -/
  | read (msg : String)
  /-- The error returned by `json.Unmarshal`. -/
  | json (msg : String)
  /-- An error built by `fmt.Errorf`. -/
  | errorf (msg : String)
deriving DecidableEq, Repr

/-- Go `err.Error()`. -/
def Err.Error : Err → String
  | .http e => e.Error
  | .transport m => m
  | .read m => m
  | .json m => m
  | .errorf m => m

/-! ## JSON -/

/-- A value decoded by `encoding/json` into `interface{}`. -/
inductive JSONValue where
  | null
  | bool (b : Bool)
  | number (literal : String)
  | string (s : String)
  | array (xs : List JSONValue)
  | object (kvs : List (String × JSONValue))

/-- A decoded `map[string]interface{}`; an absent key is `none`. -/
abbrev JSONMap := String → Option JSONValue

/-! ## The scraper -/

/-- What `api.go` uses from the rest of the package. -/
structure Env where
  /-- The constant `bearerToken1` (declared outside `api.go`). -/
  bearerToken1 : String
  /-- The constant `bearerToken2` (declared outside `api.go`). -/
  bearerToken2 : String
  /-- The OAuth1 signature `s.sign(method, url)` (declared outside `api.go`). -/
  sign : String → String → String
  /-- The transport of `s.client`. -/
  transport : Transport
  /-- Go `json.Unmarshal(body, &jsn)` for `jsn map[string]interface{}`: the
  decoding error, or the decoded map. -/
  unmarshalMap : String → Except String JSONMap

/-- The fields of `Scraper` that `api.go` reads or writes. -/
structure Scraper where
  bearerToken : String
  guestToken : String
  guestCreatedAt : Int
  isLogged : Bool
  oAuthToken : String
  oAuthSecret : String
  userAgent : String
  client : Client

/-- Modelled from the spec: `IsGuestToken` is declared outside `api.go`; the
spec's data model reads "`guestToken` (string, empty = absent)", so the guest
token is present exactly when it is not the empty string. -/
def Scraper.IsGuestToken (s : Scraper) : Bool :=
  s.guestToken != ""

/-- The activation request `GetGuestToken` builds for candidate `tok`. -/
def activationRequest (userAgent tok : String) : Request :=
  let req := NewRequest "POST" activateURL
  let req := { req with Header := req.Header.Set "Authorization" ("Bearer " ++ tok) }
  { req with Header := req.Header.Set "User-Agent" userAgent }

/-- The `for _, tok := range tryTokens` loop of `GetGuestToken`, with its
local variables `seen` and `lastErr`. -/
def GetGuestToken.loop (env : Env) (now : Int) :
    List String → List String → Option Err → Scraper → Scraper × Option Err
  | [], _, lastErr, s =>
    match lastErr with
    | some e => (s, some e)
    | none => (s, some (Err.errorf "unable to get guest token"))
  | tok :: rest, seen, lastErr, s =>
    if tok = "" ∨ tok ∈ seen then GetGuestToken.loop env now rest seen lastErr s
    else
      let seen := tok :: seen
      let req := activationRequest s.userAgent tok
      let r := s.client.Do env.transport req
      let s := { s with client := r.1 }
      match r.2 with
      | .error e => GetGuestToken.loop env now rest seen (some (Err.transport e)) s
      | .ok resp =>
        match resp.Body with
        | .error e => (s, some (Err.read e))
        | .ok body =>
          if resp.StatusCode ≠ 200 then
            GetGuestToken.loop env now rest seen
              (some (Err.errorf (Sprintf "response status %s: %s" [resp.Status, body]))) s
          else
            match env.unmarshalMap body with
            | .error e => (s, some (Err.json e))
            | .ok jsn =>
              match jsn "guest_token" with
              | some (JSONValue.string t) =>
                ({ s with guestToken := t, bearerToken := tok, guestCreatedAt := now }, none)
              | _ => ({ s with guestToken := "" }, some (Err.errorf "guest_token not found"))

/-- The slice `tryTokens` of `GetGuestToken`. -/
def tryTokens (env : Env) (s : Scraper) : List String :=
  [s.bearerToken, env.bearerToken1, env.bearerToken2, bearerToken]

/-- Method `GetGuestToken`. -/
def Scraper.GetGuestToken (env : Env) (now : Int) (s : Scraper) : Scraper × Option Err :=
  GetGuestToken.loop env now (tryTokens env s) [] none s

/-- The zero `time.Time` (January 1 of year 1, UTC), in nanoseconds from the
Unix epoch. -/
def zeroTime : Int := -62135596800 * 1000000000

/-- Method `ClearGuestToken`. -/
def Scraper.ClearGuestToken (s : Scraper) : Scraper × Option Err :=
  ({ s with guestToken := "", guestCreatedAt := zeroTime }, none)

/-- Method `setGuestToken`. -/
def Scraper.setGuestToken (env : Env) (now : Int) (s : Scraper) (req : Request) :
    Scraper × Request × Option Err :=
  if !s.IsGuestToken || decide (s.guestCreatedAt < now + -threeHours) then
    match s.GetGuestToken env now with
    | (s1, some err) => (s1, req, some err)
    | (s1, none) => (s1, { req with Header := req.Header.Set "X-Guest-Token" s1.guestToken }, none)
  else
    (s, { req with Header := req.Header.Set "X-Guest-Token" s.guestToken }, none)

/-- Method `setAuthorizationHeader`. -/
def Scraper.setAuthorizationHeader (env : Env) (s : Scraper) (req : Request) : Request :=
  if s.oAuthToken ≠ "" ∧ s.oAuthSecret ≠ "" then
    { req with Header := req.Header.Set "Authorization" (env.sign req.Method req.URL) }
  else
    { req with Header := req.Header.Set "Authorization" ("Bearer " ++ s.bearerToken) }

/-- The `for ... range` loop of `setCSRFToken`: the first cookie named `ct0` wins. -/
def setCSRFToken.loop (req : Request) : List Cookie → Request
  | [] => req
  | cookie :: rest =>
    if cookie.Name = "ct0" then
      { req with Header := req.Header.Set "X-CSRF-Token" cookie.Value }
    else setCSRFToken.loop req rest

/-- Method `setCSRFToken`. -/
def Scraper.setCSRFToken (s : Scraper) (req : Request) : Request :=
  setCSRFToken.loop req (s.client.Jar req.URL)

/-- Method `prepareRequest`. -/
def Scraper.prepareRequest (env : Env) (now : Int) (s : Scraper) (req : Request) :
    Scraper × Request × Option Err :=
  let req := { req with Header := req.Header.Set "User-Agent" s.userAgent }
  if !s.isLogged then
    match s.setGuestToken env now req with
    | (s1, req1, some err) => (s1, req1, some err)
    | (s1, req1, none) => (s1, s1.setCSRFToken (s1.setAuthorizationHeader env req1), none)
  else
    (s, s.setCSRFToken (s.setAuthorizationHeader env req), none)

/-- The `target interface{}` argument of `RequestAPI`: `none` is a nil target,
`some dec` a target of type `α` whose `json.Unmarshal(content, target)` is `dec`. -/
abbrev Target (α : Type) := Option (String → Except String α)

/-- Method `handleResponse`.  The result is the returned error, or the value
decoded into the target (`none` for a nil target). -/
def Scraper.handleResponse {α : Type} (s : Scraper) (resp : Response) (target : Target α) :
    Scraper × Except Err (Option α) :=
  match resp.Body with
  | .error e => (s, .error (Err.read e))
  | .ok content =>
    if resp.StatusCode ≠ 200 then
      (s, .error (Err.http
        { StatusCode := resp.StatusCode, Status := resp.Status, Body := content }))
    else
      let s := if resp.Header.Get "X-Rate-Limit-Remaining" = "0" then
        { s with guestToken := "" } else s
      match target with
      | none => (s, .ok none)
      | some dec =>
        match dec content with
        | .error e => (s, .error (Err.json e))
        | .ok v => (s, .ok (some v))

/-- Method `RequestAPI`. -/
def Scraper.RequestAPI {α : Type} (env : Env) (now : Int) (s : Scraper) (req : Request)
    (target : Target α) : Scraper × Except Err (Option α) :=
  match s.prepareRequest env now req with
  | (s1, _, some err) => (s1, .error err)
  | (s1, req1, none) =>
    let r := s1.client.Do env.transport req1
    let s2 := { s1 with client := r.1 }
    match r.2 with
    | .error e => (s2, .error (Err.transport e))
    | .ok resp => s2.handleResponse resp target

/-! ## Auxiliary definitions for the statements -/

/-- The scraper after one more recorded transport call. -/
def Scraper.record (s : Scraper) (req : Request) : Scraper :=
  { s with client := { s.client with calls := s.client.calls ++ [req] } }

/-- How the loop body of `GetGuestToken` reads the answer to one activation
call: go on with the next candidate, return an error at once (clearing the
guest token or not), or accept the guest token. -/
inductive Verdict where
  | next (e : Err)
  | abort (e : Err) (clears : Bool)
  | granted (t : String)

/-- The verdict of the loop body of `GetGuestToken` on one answer. -/
def verdict (env : Env) (r : Except String Response) : Verdict :=
  match r with
  | .error e => .next (Err.transport e)
  | .ok resp =>
    match resp.Body with
    | .error e => .abort (Err.read e) false
    | .ok body =>
      if resp.StatusCode ≠ 200 then
        .next (Err.errorf (Sprintf "response status %s: %s" [resp.Status, body]))
      else
        match env.unmarshalMap body with
        | .error e => .abort (Err.json e) false
        | .ok jsn =>
          match jsn "guest_token" with
          | some (JSONValue.string t) => .granted t
          | _ => .abort (Err.errorf "guest_token not found") true

/-- The candidates of one `GetGuestToken` call as the specification words them:
the tokens of the try list in order, skipping every empty string and every
token already tried (`seen`). -/
def candidatesFrom : List String → List String → List String
  | [], _ => []
  | tok :: rest, seen =>
    if tok = "" ∨ tok ∈ seen then candidatesFrom rest seen
    else tok :: candidatesFrom rest (tok :: seen)

/-- The loop of `GetGuestToken` run over a list of candidates that are already
distinct and non-empty. -/
def GetGuestToken.run (env : Env) (now : Int) :
    List String → Option Err → Scraper → Scraper × Option Err
  | [], lastErr, s =>
    match lastErr with
    | some e => (s, some e)
    | none => (s, some (Err.errorf "unable to get guest token"))
  | tok :: rest, _, s =>
    match verdict env (env.transport s.client.calls (activationRequest s.userAgent tok)) with
    | .next e =>
      GetGuestToken.run env now rest (some e) (s.record (activationRequest s.userAgent tok))
    | .abort e clears =>
      (if clears then { s.record (activationRequest s.userAgent tok) with guestToken := "" }
        else s.record (activationRequest s.userAgent tok), some e)
    | .granted t =>
      ({ s.record (activationRequest s.userAgent tok) with
          guestToken := t, bearerToken := tok, guestCreatedAt := now }, none)

/-- The answer sends `GetGuestToken` on to the next candidate: a transport
error, or a response whose body was read and whose status is not 200. -/
def Retryable (r : Except String Response) : Prop :=
  (∃ e, r = .error e) ∨
    ∃ resp body, r = .ok resp ∧ resp.Body = .ok body ∧ resp.StatusCode ≠ 200

/-- The answer is a 200 whose body decodes to a JSON object holding the string
`guest_token` `t`. -/
def Grants (env : Env) (r : Except String Response) (t : String) : Prop :=
  ∃ resp body jsn, r = .ok resp ∧ resp.StatusCode = 200 ∧ resp.Body = .ok body ∧
    env.unmarshalMap body = .ok jsn ∧ jsn "guest_token" = some (JSONValue.string t)

/-- The answer is a 200 whose body decodes to a JSON object without a
`guest_token` of string type. -/
def LacksToken (env : Env) (r : Except String Response) : Prop :=
  ∃ resp body jsn, r = .ok resp ∧ resp.StatusCode = 200 ∧ resp.Body = .ok body ∧
    env.unmarshalMap body = .ok jsn ∧ ∀ t, jsn "guest_token" ≠ some (JSONValue.string t)

/-- The answer is a 200 whose body `json.Unmarshal` rejects with error `e`. -/
def NotJSON (env : Env) (r : Except String Response) (e : String) : Prop :=
  ∃ resp body, r = .ok resp ∧ resp.StatusCode = 200 ∧ resp.Body = .ok body ∧
    env.unmarshalMap body = .error e

/-- The answer is a response whose body `io.ReadAll` fails to read, with
error `e`. -/
def ReadFails (r : Except String Response) (e : String) : Prop :=
  ∃ resp, r = .ok resp ∧ resp.Body = .error e

/-- Every candidate of the list, tried in order after the calls `calls`, is
answered with a transport error or a non-200 response. -/
def RetryAll (env : Env) (userAgent : String) : List Request → List String → Prop
  | _, [] => True
  | calls, tok :: rest =>
    Retryable (env.transport calls (activationRequest userAgent tok)) ∧
      RetryAll env userAgent (calls ++ [activationRequest userAgent tok]) rest

/-- The answer of the transport to the activation call for `tok`, made by
scraper `s` right after the activation calls for the candidates `pre`. -/
def answerAfter (env : Env) (s : Scraper) (pre : List String) (tok : String) :
    Except String Response :=
  env.transport (s.client.calls ++ pre.map (activationRequest s.userAgent))
    (activationRequest s.userAgent tok)

/-! ## Concrete scrapers, transports and answers used as test inputs -/

/-- A 200 answer with the given body and no headers. -/
def okResponse (body : String) : Response :=
  { StatusCode := 200, Status := "200 OK", Header := [], Body := .ok body }

/-- The 401 answer of the repository's tests. -/
def unauthorizedResponse : Response :=
  { StatusCode := 401, Status := "401 Unauthorized", Header := [], Body := .ok "nope" }

/-- The body of a successful activation that hands out guest token `g1`. -/
def bodyG1 : String := "\x7b\"guest_token\":\"g1\"\x7d"

/-- The body of a successful activation that hands out guest token `g2`. -/
def bodyG2 : String := "\x7b\"guest_token\":\"g2\"\x7d"

/-- A decoder for the few bodies the test inputs use: the two activation
bodies, the empty object, and anything else is not JSON. -/
def sampleUnmarshalMap (body : String) : Except String JSONMap :=
  if body = bodyG1 then
    .ok (fun k => if k = "guest_token" then some (JSONValue.string "g1") else none)
  else if body = bodyG2 then
    .ok (fun k => if k = "guest_token" then some (JSONValue.string "g2") else none)
  else if body = "\x7b\x7d" then .ok (fun _ => none)
  else .error "invalid character"

/-- An environment with short stand-ins for `bearerToken1`, `bearerToken2` and
the OAuth1 signature, over the given transport. -/
def sampleEnv (tr : Transport) : Env :=
  { bearerToken1 := "BT1"
    bearerToken2 := "BT2"
    sign := fun method url => "OAuth " ++ method ++ " " ++ url
    transport := tr
    unmarshalMap := sampleUnmarshalMap }

/-- A guest scraper with bearer `A`, no guest token and no call made yet. -/
def guestScraper : Scraper :=
  { bearerToken := "A"
    guestToken := ""
    guestCreatedAt := 0
    isLogged := false
    oAuthToken := ""
    oAuthSecret := ""
    userAgent := "UA"
    client := { Jar := fun _ => [], calls := [] } }

/-- The request of `TestRequestAPI_BearerFallbackOn401`. -/
def sampleRequest : Request :=
  NewRequest "GET" "https://x.com/i/api/graphql/some-op"

/-- A transport that answers every call with 401. -/
def refuseAll : Transport := fun _ _ => .ok unauthorizedResponse

/-- A transport that grants guest token `g1` to every call. -/
def grantAll : Transport := fun _ _ => .ok (okResponse bodyG1)

/-- A transport that grants `g1` to the first call, answers the second with
401 and grants `g2` from the third call on. -/
def rotateAfterFirst : Transport := fun calls _ =>
  if calls.length = 0 then .ok (okResponse bodyG1)
  else if calls.length = 1 then .ok unauthorizedResponse
  else .ok (okResponse bodyG2)

/-- A transport that answers bearer `A` with a 200 whose body is not JSON and
grants `g1` to every other bearer. -/
def garbageForA : Transport := fun _ req =>
  if req.Header.Get "Authorization" = "Bearer A" then .ok (okResponse "nope")
  else .ok (okResponse bodyG1)

/-- The transport of `TestRequestAPI_BearerFallbackOn401`: 401 for the bearer
`tok`, 200 with an empty object for any other. -/
def fallbackTransport (tok : String) : Transport := fun _ req =>
  if req.Header.Get "Authorization" = "Bearer " ++ tok then .ok unauthorizedResponse
  else .ok (okResponse "\x7b\x7d")

/-- The logged-in scraper of `TestRequestAPI_BearerFallbackOn401`: its bearer
is the stand-in for `bearerToken2`. -/
def loggedScraper : Scraper :=
  { guestScraper with isLogged := true, bearerToken := "BT2" }

/-- A guest scraper holding guest token `g0` created at time 0. -/
def tokenScraper : Scraper :=
  { guestScraper with guestToken := "g0", guestCreatedAt := 0 }

/-- A guest scraper without guest token and with an OAuth key pair. -/
def oauthScraper : Scraper :=
  { guestScraper with oAuthToken := "otoken", oAuthSecret := "osecret" }

/-- A 200 answer that reports an exhausted rate limit. -/
def rateLimitedResponse : Response :=
  { StatusCode := 200, Status := "200 OK",
    Header := [("X-Rate-Limit-Remaining", ["0"])], Body := .ok "\x7b\x7d" }

/-- A 200 answer that reports an exhausted rate limit and whose body cannot be
read to the end. -/
def unreadableResponse : Response :=
  { StatusCode := 200, Status := "200 OK",
    Header := [("X-Rate-Limit-Remaining", ["0"])], Body := .error "unexpected EOF" }

/-- Four hours, in nanoseconds. -/
def fourHours : Int := 4 * 3600 * 1000000000

/-! ## The conversation payload and its normalizer

`threadedConversation` and its method `parse` are declared outside `api.go`;
only their tests are at hand.  The definitions of this section follow the
specification (section 4.3) and the payloads of the tests. -/

/-- Modelled from the spec: the author `legacy` object of a payload entry
(`id_str`, `screen_name`, `name`), whose type is declared outside the sources. -/
structure LegacyUser where
  id_str : String
  screen_name : String
  name : String
deriving DecidableEq, Repr

/-- Modelled from the spec: the tweet `legacy` object of a payload entry, whose
type is declared outside the sources. -/
structure LegacyTweet where
  id_str : String
  conversation_id_str : String
  user_id_str : String
  created_at : String
  full_text : String
deriving DecidableEq, Repr

/-- Modelled from the spec: an entry object of an instruction, reduced to the
fixed path the normalizer descends: `content.itemContent.itemType`, and under
`content.itemContent.tweet_results.result` the `__typename`, the author
`core.user_results.result.legacy` and the tweet `legacy`. -/
structure Entry where
  itemType : String
  typename : String
  user : LegacyUser
  legacy : LegacyTweet
deriving DecidableEq, Repr

/-- Modelled from the spec: an instruction of the payload, "a `type` tag and
either a single `entry` object or an `entries` sequence of objects". -/
structure Instruction where
  type : String
  entry : Option Entry
  entries : List Entry
deriving DecidableEq, Repr

/-- Modelled from the spec: the decoded conversation payload, the array of
instructions under `data.threaded_conversation_with_injections_v2`. -/
structure threadedConversation where
  instructions : List Instruction
deriving DecidableEq, Repr

/-- Modelled from the spec: the canonical `User` (id, handle, display name). -/
structure User where
  ID : String
  Username : String
  Name : String
deriving DecidableEq, Repr

/-- Modelled from the spec: the canonical post (id, conversation id, author id,
creation time, text) with its own author snapshot. -/
structure Tweet where
  ID : String
  ConversationID : String
  UserID : String
  Timestamp : Int
  Text : String
  User : User
deriving DecidableEq, Repr

/-- Modelled from the spec: what the normalizer takes from outside, the test
for a "tweet" kind of item and the parser of the fixed textual date format. -/
structure Normalizer where
  tweetKind : Entry → Bool
  parseTime : String → Option Int

/-- Modelled from the spec: the normalized sequence of entry objects of an
instruction, "either the singleton under `entry` or the sequence under
`entries`", either key accepted whenever present, whatever the type tag. -/
def Instruction.normalized (i : Instruction) : List Entry :=
  (match i.entry with
    | some e => [e]
    | none => []) ++ i.entries

/-- Modelled from the spec: the post of one entry.  Entries that are not of a
tweet kind are skipped, and so are entries whose required fields cannot be
extracted (no id, or a creation time that is not in the fixed date format). -/
def Normalizer.extract (n : Normalizer) (e : Entry) : Option Tweet :=
  if n.tweetKind e then
    if e.legacy.id_str = "" then none
    else
      match n.parseTime e.legacy.created_at with
      | none => none
      | some t =>
        some
          { ID := e.legacy.id_str
            ConversationID := e.legacy.conversation_id_str
            UserID := e.legacy.user_id_str
            Timestamp := t
            Text := e.legacy.full_text
            User :=
              { ID := e.user.id_str, Username := e.user.screen_name, Name := e.user.name } }
  else none

/-- Modelled from the spec: `threadedConversation.parse(focalTweetID)`, which
is declared outside the sources: the posts of all entries of all instructions,
in order, and the post whose id is the focal id, if one was supplied and one
matches. -/
def threadedConversation.parse (n : Normalizer) (conv : threadedConversation)
    (focalTweetID : String) : List Tweet × Option Tweet :=
  let tweets := (conv.instructions.flatMap Instruction.normalized).filterMap n.extract
  (tweets, if focalTweetID = "" then none else tweets.find? (fun t => t.ID == focalTweetID))

/-- The normalizer of the test inputs: an item is of tweet kind when its
`__typename` is `Tweet`, and the only date it reads is Go's reference time. -/
def sampleNormalizer : Normalizer :=
  { tweetKind := fun e => e.typename == "Tweet"
    parseTime := fun s =>
      if s = "Mon Jan 02 15:04:05 -0700 2006" then some 1136239445 else none }

/-- The entry of `TestThreadedConversationParse_SupportsInstructionEntry`. -/
def sampleEntry : Entry :=
  { itemType := "TimelineTweet"
    typename := "Tweet"
    user := { id_str := "u1", screen_name := "user", name := "User" }
    legacy :=
      { id_str := "2001787100006690996"
        conversation_id_str := "2001787100006690996"
        user_id_str := "u1"
        created_at := "Mon Jan 02 15:04:05 -0700 2006"
        full_text := "hello" } }

/-- The same entry with a creation time that is not in the date format. -/
def undatedEntry : Entry :=
  { sampleEntry with legacy := { sampleEntry.legacy with created_at := "yesterday" } }

/-! ## Headers -/

theorem lookup_filter_ne (h : HttpHeader) (k k' : String) (hk : k' ≠ k) :
    List.lookup k' (List.filter (fun kv => kv.1 != k) h) = List.lookup k' h := by
  induction h with
  | nil => rfl
  | cons x xs ih =>
    rcases x with ⟨a, b⟩
    by_cases ha : a = k
    · subst ha
      have hne : (k' == a) = false := by simpa using hk
      simp [List.filter, List.lookup, hne, ih]
    · have hne : (a != k) = true := by simpa using ha
      simp only [List.filter, hne, List.lookup, ih]

theorem Get_Set_ne (h : HttpHeader) (k k' v : String) (hk : k' ≠ k) :
    (h.Set k v).Get k' = h.Get k' := by
  have hne : (k' == k) = false := by simpa using hk
  simp only [HttpHeader.Set, HttpHeader.Get, List.lookup, hne, lookup_filter_ne h k k' hk]

theorem Get_Set_self (h : HttpHeader) (k v : String) : (h.Set k v).Get k = v := by
  simp [HttpHeader.Set, HttpHeader.Get, List.lookup]

theorem Sprintf_status (a b : String) :
    Sprintf "response status %s: %s" [a, b] = "response status " ++ a ++ ": " ++ b := by
  apply String.ext
  simp [Sprintf, Sprintf.go, String.data_append]

/-! ## The loop of `GetGuestToken` -/

theorem loop_cons (env : Env) (now : Int) (tok : String) (rest seen : List String)
    (lastErr : Option Err) (s : Scraper) :
    GetGuestToken.loop env now (tok :: rest) seen lastErr s =
      if tok = "" ∨ tok ∈ seen then GetGuestToken.loop env now rest seen lastErr s
      else
        match verdict env (env.transport s.client.calls (activationRequest s.userAgent tok)) with
        | .next e =>
          GetGuestToken.loop env now rest (tok :: seen) (some e)
            (s.record (activationRequest s.userAgent tok))
        | .abort e clears =>
          (if clears then { s.record (activationRequest s.userAgent tok) with guestToken := "" }
            else s.record (activationRequest s.userAgent tok), some e)
        | .granted t =>
          ({ s.record (activationRequest s.userAgent tok) with
              guestToken := t, bearerToken := tok, guestCreatedAt := now }, none) := by
  rw [GetGuestToken.loop]
  split_ifs with h
  · rfl
  · simp only [Client.Do, verdict, Scraper.record]
    cases hr : env.transport s.client.calls (activationRequest s.userAgent tok) with
    | error e => rfl
    | ok resp =>
      cases hb : resp.Body with
      | error e => simp [hb]
      | ok body =>
        by_cases hs : resp.StatusCode = 200
        · simp only [hs, hb]
          cases hj : env.unmarshalMap body with
          | error e => simp
          | ok jsn =>
            simp only [ne_eq, not_true_eq_false, if_false]
            split <;> simp_all
        · simp [hs, hb]

theorem loop_eq_run (env : Env) (now : Int) (toks seen : List String)
    (lastErr : Option Err) (s : Scraper) :
    GetGuestToken.loop env now toks seen lastErr s =
      GetGuestToken.run env now (candidatesFrom toks seen) lastErr s := by
  induction toks generalizing seen lastErr s with
  | nil => simp [GetGuestToken.loop, GetGuestToken.run, candidatesFrom]
  | cons tok rest ih =>
    rw [loop_cons, candidatesFrom]
    split_ifs with h
    · exact ih _ _ _
    · rw [GetGuestToken.run]
      cases hv : verdict env (env.transport s.client.calls (activationRequest s.userAgent tok)) with
      | next e => simp only [ih]
      | abort e c => rfl
      | granted t => rfl

/-! ## Verdicts and the answers they stand for -/

theorem verdict_next {env : Env} {r : Except String Response} {e : Err}
    (h : verdict env r = .next e) : Retryable r := by
  unfold verdict at h
  cases r with
  | error m => exact Or.inl ⟨m, rfl⟩
  | ok resp =>
    cases hb : resp.Body with
    | error m => simp [hb] at h
    | ok body =>
      by_cases hs : resp.StatusCode = 200
      · simp only [hb, hs] at h
        cases hj : env.unmarshalMap body with
        | error m => simp [hj] at h
        | ok jsn =>
          simp only [hj, ne_eq, not_true_eq_false, if_false] at h
          split at h <;> simp at h
      · exact Or.inr ⟨resp, body, rfl, hb, hs⟩

theorem verdict_of_retryable (env : Env) {r : Except String Response}
    (h : Retryable r) : ∃ e, verdict env r = .next e := by
  rcases h with ⟨m, rfl⟩ | ⟨resp, body, rfl, hb, hs⟩
  · exact ⟨_, rfl⟩
  · exact ⟨Err.errorf (Sprintf "response status %s: %s" [resp.Status, body]),
      by simp [verdict, hb, hs]⟩

theorem verdict_of_grants {env : Env} {r : Except String Response} {t : String}
    (h : Grants env r t) : verdict env r = .granted t := by
  rcases h with ⟨resp, body, jsn, rfl, hs, hb, hj, ht⟩
  simp [verdict, hb, hs, hj, ht]

theorem grants_of_verdict {env : Env} {r : Except String Response} {t : String}
    (h : verdict env r = .granted t) : Grants env r t := by
  unfold verdict at h
  cases r with
  | error m => simp at h
  | ok resp =>
    cases hb : resp.Body with
    | error m => simp [hb] at h
    | ok body =>
      by_cases hs : resp.StatusCode = 200
      · simp only [hb, hs] at h
        cases hj : env.unmarshalMap body with
        | error m => simp [hj] at h
        | ok jsn =>
          simp only [hj, ne_eq, not_true_eq_false, if_false] at h
          split at h
          · rename_i t' ht
            simp only [Verdict.granted.injEq] at h
            subst h
            exact ⟨resp, body, jsn, rfl, hs, hb, hj, ht⟩
          · simp at h
      · simp [hb, hs] at h

theorem lacks_of_verdict {env : Env} {r : Except String Response} {e : Err}
    (h : verdict env r = .abort e true) : LacksToken env r := by
  unfold verdict at h
  cases r with
  | error m => simp at h
  | ok resp =>
    cases hb : resp.Body with
    | error m => simp [hb] at h
    | ok body =>
      by_cases hs : resp.StatusCode = 200
      · simp only [hb, hs] at h
        cases hj : env.unmarshalMap body with
        | error m => simp [hj] at h
        | ok jsn =>
          simp only [hj, ne_eq, not_true_eq_false, if_false] at h
          split at h
          · simp at h
          · rename_i hno
            exact ⟨resp, body, jsn, rfl, hs, hb, hj, fun t ht => hno t ht⟩
      · simp [hb, hs] at h

theorem verdict_of_lacks {env : Env} {r : Except String Response}
    (h : LacksToken env r) :
    verdict env r = .abort (Err.errorf "guest_token not found") true := by
  rcases h with ⟨resp, body, jsn, rfl, hs, hb, hj, ht⟩
  cases hg : jsn "guest_token" with
  | none => simp [verdict, hb, hs, hj, hg]
  | some v =>
    cases v with
    | string t => exact absurd hg (ht t)
    | _ => simp [verdict, hb, hs, hj, hg]

theorem verdict_of_notJSON {env : Env} {r : Except String Response} {e : String}
    (h : NotJSON env r e) : verdict env r = .abort (Err.json e) false := by
  rcases h with ⟨resp, body, rfl, hs, hb, hj⟩
  simp [verdict, hb, hs, hj]

theorem verdict_of_readFails {env : Env} {r : Except String Response} {e : String}
    (h : ReadFails r e) : verdict env r = .abort (Err.read e) false := by
  rcases h with ⟨resp, rfl, hb⟩
  simp [verdict, hb]

/-! ## The candidates run -/

theorem run_frame (env : Env) (now : Int) (cands : List String) (lastErr : Option Err)
    (s : Scraper) :
    (GetGuestToken.run env now cands lastErr s).1.userAgent = s.userAgent ∧
    (GetGuestToken.run env now cands lastErr s).1.isLogged = s.isLogged ∧
    (GetGuestToken.run env now cands lastErr s).1.oAuthToken = s.oAuthToken ∧
    (GetGuestToken.run env now cands lastErr s).1.oAuthSecret = s.oAuthSecret ∧
    (GetGuestToken.run env now cands lastErr s).1.client.Jar = s.client.Jar := by
  induction cands generalizing lastErr s with
  | nil => cases lastErr <;> simp [GetGuestToken.run]
  | cons tok rest ih =>
    rw [GetGuestToken.run]
    cases hv : verdict env (env.transport s.client.calls (activationRequest s.userAgent tok)) with
    | next e => simpa [Scraper.record] using ih (some e) (s.record (activationRequest s.userAgent tok))
    | abort e c => cases c <;> simp [Scraper.record]
    | granted t => simp [Scraper.record]

theorem run_calls (env : Env) (now : Int) (cands : List String) (lastErr : Option Err)
    (s : Scraper) :
    ∃ tried, tried <+: cands ∧ (cands ≠ [] → tried ≠ []) ∧
      (GetGuestToken.run env now cands lastErr s).1.client.calls =
        s.client.calls ++ tried.map (activationRequest s.userAgent) := by
  induction cands generalizing lastErr s with
  | nil => exact ⟨[], List.prefix_refl _, fun h => absurd rfl h, by
      cases lastErr <;> simp [GetGuestToken.run]⟩
  | cons tok rest ih =>
    rw [GetGuestToken.run]
    cases hv : verdict env (env.transport s.client.calls (activationRequest s.userAgent tok)) with
    | next e =>
      obtain ⟨tried, hp, _, hc⟩ := ih (some e) (s.record (activationRequest s.userAgent tok))
      refine ⟨tok :: tried, ?_, by simp, ?_⟩
      · exact (List.prefix_cons_inj tok).2 hp
      · show (GetGuestToken.run env now rest (some e)
            (s.record (activationRequest s.userAgent tok))).1.client.calls = _
        rw [hc]
        simp [Scraper.record]
    | abort e c =>
      refine ⟨[tok], by simp [List.prefix_iff_eq_take], by simp, ?_⟩
      cases c <;> simp [Scraper.record]
    | granted t =>
      exact ⟨[tok], by simp [List.prefix_iff_eq_take], by simp, by simp [Scraper.record]⟩

theorem run_none_iff (env : Env) (now : Int) (cands : List String) (lastErr : Option Err)
    (s : Scraper) :
    (GetGuestToken.run env now cands lastErr s).2 = none ↔
      ∃ pre C post T, cands = pre ++ C :: post ∧
        RetryAll env s.userAgent s.client.calls pre ∧ Grants env (answerAfter env s pre C) T := by
  induction cands generalizing lastErr s with
  | nil =>
    constructor
    · intro h
      cases lastErr <;> simp [GetGuestToken.run] at h
    · rintro ⟨pre, C, post, T, h, _⟩
      simp at h
  | cons tok rest ih =>
    rw [GetGuestToken.run]
    cases hv : verdict env (env.transport s.client.calls (activationRequest s.userAgent tok)) with
    | next e =>
      simp only
      rw [ih]
      constructor
      · rintro ⟨pre, C, post, T, hc, hr, hg⟩
        refine ⟨tok :: pre, C, post, T, by simp [hc], ⟨verdict_next hv, hr⟩, ?_⟩
        simpa [answerAfter, Scraper.record, List.append_assoc] using hg
      · rintro ⟨pre, C, post, T, hc, hr, hg⟩
        cases pre with
        | nil =>
          simp only [List.nil_append, List.cons.injEq] at hc
          obtain ⟨rfl, rfl⟩ := hc
          have := verdict_of_grants hg
          simp [answerAfter, hv] at this
        | cons D pre =>
          simp only [List.cons_append, List.cons.injEq] at hc
          obtain ⟨rfl, rfl⟩ := hc
          refine ⟨pre, C, post, T, rfl, hr.2, ?_⟩
          simpa [answerAfter, Scraper.record, List.append_assoc] using hg
    | abort e c =>
      simp only
      constructor
      · intro h
        simp at h
      · rintro ⟨pre, C, post, T, hc, hr, hg⟩
        cases pre with
        | nil =>
          simp only [List.nil_append, List.cons.injEq] at hc
          obtain ⟨rfl, rfl⟩ := hc
          have := verdict_of_grants hg
          simp [answerAfter, hv] at this
        | cons D pre =>
          simp only [List.cons_append, List.cons.injEq] at hc
          obtain ⟨rfl, rfl⟩ := hc
          obtain ⟨e', he'⟩ := verdict_of_retryable env hr.1
          simp [hv] at he'
    | granted t =>
      simp only [true_iff]
      exact ⟨[], tok, rest, t, rfl, trivial, by simpa [answerAfter] using grants_of_verdict hv⟩

theorem run_success (env : Env) (now : Int) (cands : List String) (lastErr : Option Err)
    (s : Scraper) (h : (GetGuestToken.run env now cands lastErr s).2 = none) :
    ∃ pre C post T, cands = pre ++ C :: post ∧
      RetryAll env s.userAgent s.client.calls pre ∧ Grants env (answerAfter env s pre C) T ∧
      (GetGuestToken.run env now cands lastErr s).1.client.calls =
        s.client.calls ++ (pre ++ [C]).map (activationRequest s.userAgent) ∧
      (GetGuestToken.run env now cands lastErr s).1.bearerToken = C ∧
      (GetGuestToken.run env now cands lastErr s).1.guestToken = T ∧
      (GetGuestToken.run env now cands lastErr s).1.guestCreatedAt = now := by
  induction cands generalizing lastErr s with
  | nil => cases lastErr <;> simp [GetGuestToken.run] at h
  | cons tok rest ih =>
    rw [GetGuestToken.run] at h ⊢
    cases hv : verdict env (env.transport s.client.calls (activationRequest s.userAgent tok)) with
    | next e =>
      rw [hv] at h
      obtain ⟨pre, C, post, T, hc, hr, hg, h1, h2, h3, h4⟩ :=
        ih (some e) (s.record (activationRequest s.userAgent tok)) h
      refine ⟨tok :: pre, C, post, T, by simp [hc], ⟨verdict_next hv, hr⟩, ?_, ?_, h2, h3, h4⟩
      · simpa [answerAfter, Scraper.record, List.append_assoc] using hg
      · show (GetGuestToken.run env now rest (some e)
            (s.record (activationRequest s.userAgent tok))).1.client.calls = _
        rw [h1]
        simp [Scraper.record]
    | abort e c => simp [hv] at h
    | granted t =>
      exact ⟨[], tok, rest, t, rfl, trivial, by simpa [answerAfter] using grants_of_verdict hv,
        by simp [Scraper.record], rfl, rfl, rfl⟩

theorem run_stops (env : Env) (now : Int) (pre : List String) (C : String)
    (post : List String) (lastErr : Option Err) (s : Scraper) (e : Err) (c : Bool)
    (hr : RetryAll env s.userAgent s.client.calls pre)
    (hv : verdict env (answerAfter env s pre C) = .abort e c) :
    (GetGuestToken.run env now (pre ++ C :: post) lastErr s).2 = some e ∧
      (GetGuestToken.run env now (pre ++ C :: post) lastErr s).1.client.calls =
        s.client.calls ++ (pre ++ [C]).map (activationRequest s.userAgent) := by
  induction pre generalizing lastErr s with
  | nil =>
    simp only [answerAfter, List.map_nil, List.append_nil] at hv
    simp only [List.nil_append, GetGuestToken.run, hv]
    cases c <;> simp [Scraper.record]
  | cons D pre ih =>
    obtain ⟨e', he⟩ := verdict_of_retryable env hr.1
    simp only [List.cons_append, GetGuestToken.run, he]
    have hv' : verdict env
        (answerAfter env (s.record (activationRequest s.userAgent D)) pre C) = .abort e c := by
      simpa [answerAfter, Scraper.record, List.append_assoc] using hv
    obtain ⟨h1, h2⟩ := ih (some e') (s.record (activationRequest s.userAgent D)) hr.2 hv'
    refine ⟨h1, ?_⟩
    show (GetGuestToken.run env now (pre ++ C :: post) (some e')
        (s.record (activationRequest s.userAgent D))).1.client.calls = _
    rw [h2]
    simp [Scraper.record]

theorem run_failure (env : Env) (now : Int) (cands : List String) (lastErr : Option Err)
    (s : Scraper) (h : (GetGuestToken.run env now cands lastErr s).2 ≠ none) :
    (GetGuestToken.run env now cands lastErr s).1.bearerToken = s.bearerToken ∧
    (GetGuestToken.run env now cands lastErr s).1.guestCreatedAt = s.guestCreatedAt ∧
    (((GetGuestToken.run env now cands lastErr s).1.client.calls = s.client.calls ∧
        (GetGuestToken.run env now cands lastErr s).1.guestToken = s.guestToken) ∨
      ∃ pre last, (GetGuestToken.run env now cands lastErr s).1.client.calls = pre ++ [last] ∧
        (LacksToken env (env.transport pre last) →
          (GetGuestToken.run env now cands lastErr s).1.guestToken = "") ∧
        (¬ LacksToken env (env.transport pre last) →
          (GetGuestToken.run env now cands lastErr s).1.guestToken = s.guestToken)) := by
  induction cands generalizing lastErr s with
  | nil => cases lastErr <;> simp [GetGuestToken.run]
  | cons tok rest ih =>
    rw [GetGuestToken.run] at h ⊢
    cases hv : verdict env (env.transport s.client.calls (activationRequest s.userAgent tok)) with
    | next e =>
      rw [hv] at h
      obtain ⟨h1, h2, h3⟩ := ih (some e) (s.record (activationRequest s.userAgent tok)) h
      refine ⟨h1, h2, Or.inr ?_⟩
      rcases h3 with ⟨hc, hg⟩ | ⟨pre, last, hc, hl, hn⟩
      · refine ⟨s.client.calls, activationRequest s.userAgent tok, hc, ?_, fun _ => hg⟩
        intro hl
        rw [verdict_of_lacks hl] at hv
        cases hv
      · exact ⟨pre, last, hc, hl, hn⟩
    | abort e c =>
      refine ⟨by cases c <;> rfl, by cases c <;> rfl, Or.inr
        ⟨s.client.calls, activationRequest s.userAgent tok, by cases c <;> rfl, ?_, ?_⟩⟩
      · intro hl
        rw [verdict_of_lacks hl] at hv
        cases hv
        rfl
      · intro hl
        cases c with
        | false => rfl
        | true => exact absurd (lacks_of_verdict hv) hl
    | granted t => simp [hv] at h

/-! ## The candidate list -/

theorem mem_candidatesFrom {toks seen : List String} {t : String}
    (h : t ∈ candidatesFrom toks seen) : t ∈ toks ∧ t ≠ "" ∧ t ∉ seen := by
  induction toks generalizing seen with
  | nil => simp [candidatesFrom] at h
  | cons tok rest ih =>
    rw [candidatesFrom] at h
    split_ifs at h with hc
    · obtain ⟨h1, h2, h3⟩ := ih h
      exact ⟨List.mem_cons_of_mem _ h1, h2, h3⟩
    · push_neg at hc
      rcases List.mem_cons.1 h with rfl | h
      · exact ⟨List.mem_cons_self _ _, hc.1, hc.2⟩
      · obtain ⟨h1, h2, h3⟩ := ih h
        exact ⟨List.mem_cons_of_mem _ h1, h2, fun hm => h3 (List.mem_cons_of_mem _ hm)⟩

theorem candidatesFrom_nodup (toks seen : List String) : (candidatesFrom toks seen).Nodup := by
  induction toks generalizing seen with
  | nil => simp [candidatesFrom]
  | cons tok rest ih =>
    rw [candidatesFrom]
    split_ifs with hc
    · exact ih seen
    · refine List.nodup_cons.2 ⟨fun hm => ?_, ih _⟩
      exact (mem_candidatesFrom hm).2.2 (List.mem_cons_self _ _)

theorem candidatesFrom_length (toks seen : List String) :
    (candidatesFrom toks seen).length ≤ toks.length := by
  induction toks generalizing seen with
  | nil => simp [candidatesFrom]
  | cons tok rest ih =>
    rw [candidatesFrom]
    split_ifs with hc
    · exact Nat.le_succ_of_le (ih seen)
    · simpa using ih (tok :: seen)

theorem candidatesFrom_complete {toks seen : List String} {t : String}
    (h : t ∈ toks) (hne : t ≠ "") (hs : t ∉ seen) : t ∈ candidatesFrom toks seen := by
  induction toks generalizing seen with
  | nil => simp at h
  | cons tok rest ih =>
    rw [candidatesFrom]
    split_ifs with hc
    · rcases List.mem_cons.1 h with rfl | h
      · rcases hc with hc | hc
        · exact absurd hc hne
        · exact absurd hc hs
      · exact ih h hs
    · rcases List.mem_cons.1 h with rfl | h
      · exact List.mem_cons_self _ _
      · by_cases ht : t = tok
        · subst ht
          exact List.mem_cons_self _ _
        · refine List.mem_cons_of_mem _ (ih h ?_)
          simpa [ht] using hs

theorem bearerToken_ne_empty : bearerToken ≠ "" := by decide

theorem candidates_ne_nil (env : Env) (s : Scraper) :
    candidatesFrom (tryTokens env s) [] ≠ [] := by
  have : bearerToken ∈ candidatesFrom (tryTokens env s) [] :=
    candidatesFrom_complete (by simp [tryTokens]) bearerToken_ne_empty (by simp)
  exact List.ne_nil_of_mem this

/-! ## Requests built by the scraper -/

theorem activationRequest_authorization (userAgent tok : String) :
    (activationRequest userAgent tok).Header.Get "Authorization" = "Bearer " ++ tok := by
  simp only [activationRequest]
  rw [Get_Set_ne _ _ _ _ (by decide), Get_Set_self]

theorem GetGuestToken_eq_run (env : Env) (now : Int) (s : Scraper) :
    s.GetGuestToken env now =
      GetGuestToken.run env now (candidatesFrom (tryTokens env s) []) none s :=
  loop_eq_run env now _ _ _ _

/-! ## Claims -/

/-- C7. HTTP error classification: for a response whose body was read
successfully, `handleResponse` returns an `HTTPError` exactly when the status
code is not 200; the error carries the response's status code, status line and
raw body, and its `Error()` string is `"response status " + Status + ": " + Body`. -/
theorem handleResponse_http_error_iff {α : Type} (s : Scraper) (resp : Response)
    (target : Target α) (content : String) (hbody : resp.Body = .ok content) :
    ((∃ e, (s.handleResponse resp target).2 = .error (Err.http e)) ↔ resp.StatusCode ≠ 200) ∧
    (∀ e, (s.handleResponse resp target).2 = .error (Err.http e) →
      e.StatusCode = resp.StatusCode ∧ e.Status = resp.Status ∧ e.Body = content ∧
      e.Error = "response status " ++ resp.Status ++ ": " ++ content) := by
  by_cases hs : resp.StatusCode = 200
  · have hno : ∀ e, (s.handleResponse resp target).2 ≠ .error (Err.http e) := by
      intro e
      simp only [Scraper.handleResponse, hbody, hs, ne_eq, not_true_eq_false, if_false]
      cases target with
      | none => simp
      | some dec => cases hd : dec content <;> simp [hd]
    refine ⟨⟨fun ⟨e, he⟩ => absurd he (hno e), fun h => absurd hs h⟩,
      fun e he => absurd he (hno e)⟩
  · have hr : (s.handleResponse resp target).2 = .error (Err.http
        { StatusCode := resp.StatusCode, Status := resp.Status, Body := content }) := by
      simp [Scraper.handleResponse, hbody, hs]
    refine ⟨⟨fun _ => hs, fun _ => ⟨_, hr⟩⟩, fun e he => ?_⟩
    rw [hr] at he
    simp only [Except.error.injEq, Err.http.injEq] at he
    subst he
    exact ⟨rfl, rfl, rfl, Sprintf_status _ _⟩

/-- Witness of C7 on the 401 answer of the repository's tests. -/
theorem handleResponse_http_error_iff_witness :
    ((∃ e, (guestScraper.handleResponse unauthorizedResponse (none : Target Unit)).2 =
        .error (Err.http e)) ↔ unauthorizedResponse.StatusCode ≠ 200) ∧
    (∀ e, (guestScraper.handleResponse unauthorizedResponse (none : Target Unit)).2 =
        .error (Err.http e) →
      e.StatusCode = unauthorizedResponse.StatusCode ∧
      e.Status = unauthorizedResponse.Status ∧ e.Body = "nope" ∧
      e.Error = "response status " ++ unauthorizedResponse.Status ++ ": " ++ "nope") :=
  handleResponse_http_error_iff guestScraper unauthorizedResponse none "nope" rfl

/-- C1 (defect of the code). On the input of `TestRequestAPI_BearerFallbackOn401`
(logged-in scraper, first bearer answered 401, any other bearer answered 200)
`RequestAPI` makes one transport call only and returns the 401 as an
`HTTPError`; when every call is answered 401 it also makes one call only. -/
theorem RequestAPI_makes_no_second_attempt :
    (loggedScraper.RequestAPI (sampleEnv (fallbackTransport "BT2")) 0 sampleRequest
        (none : Target Unit)).1.client.calls.length = 1 ∧
    (loggedScraper.RequestAPI (sampleEnv (fallbackTransport "BT2")) 0 sampleRequest
        (none : Target Unit)).2 =
      .error (Err.http { StatusCode := 401, Status := "401 Unauthorized", Body := "nope" }) ∧
    (loggedScraper.RequestAPI (sampleEnv refuseAll) 0 sampleRequest
        (none : Target Unit)).1.client.calls.length = 1 ∧
    (loggedScraper.RequestAPI (sampleEnv refuseAll) 0 sampleRequest
        (none : Target Unit)).2 =
      .error (Err.http { StatusCode := 401, Status := "401 Unauthorized", Body := "nope" }) := by
  refine ⟨by decide, rfl, by decide, rfl⟩

/-- C9. Candidate order and deduplication: the activation requests of one
`GetGuestToken` call are those of a non-empty initial segment of the list
current bearer, `bearerToken1`, `bearerToken2`, built-in `bearerToken` with
empty strings and already tried tokens skipped; each carries its candidate as
bearer, no token is tried twice, at most 4 requests are made, and the first
carries the current bearer when that is non-empty. -/
theorem GetGuestToken_candidate_order (env : Env) (now : Int) (s : Scraper) :
    ∃ tried : List String,
      (s.GetGuestToken env now).1.client.calls =
        s.client.calls ++ tried.map (activationRequest s.userAgent) ∧
      tried <+: candidatesFrom
        [s.bearerToken, env.bearerToken1, env.bearerToken2, bearerToken] [] ∧
      (∀ tok ∈ tried,
        (activationRequest s.userAgent tok).Header.Get "Authorization" = "Bearer " ++ tok) ∧
      tried.Nodup ∧ "" ∉ tried ∧ tried ≠ [] ∧ tried.length ≤ 4 ∧
      (s.bearerToken ≠ "" → tried.head? = some s.bearerToken) := by
  obtain ⟨tried, hp, hne, hc⟩ :=
    run_calls env now (candidatesFrom (tryTokens env s) []) none s
  have hne' : tried ≠ [] := hne (candidates_ne_nil env s)
  refine ⟨tried, ?_, hp, fun tok _ => activationRequest_authorization _ _, ?_, ?_, hne', ?_, ?_⟩
  · rw [GetGuestToken_eq_run]
    exact hc
  · exact (candidatesFrom_nodup _ _).sublist hp.sublist
  · intro hm
    exact (mem_candidatesFrom (hp.subset hm)).2.1 rfl
  · calc tried.length ≤ (candidatesFrom (tryTokens env s) []).length := hp.length_le
      _ ≤ (tryTokens env s).length := candidatesFrom_length _ _
      _ = 4 := rfl
  · intro hb
    have hcand : candidatesFrom (tryTokens env s) [] =
        s.bearerToken :: candidatesFrom [env.bearerToken1, env.bearerToken2, bearerToken]
          [s.bearerToken] := by
      simp [tryTokens, candidatesFrom, hb]
    rw [hcand] at hp
    cases tried with
    | nil => exact absurd rfl hne'
    | cons t ts =>
      obtain ⟨rest, hrest⟩ := hp
      simp only [List.cons_append, List.cons.injEq] at hrest
      simp [hrest.1]

/-- C10. Effect of a failed refresh: when `GetGuestToken` returns an error the
bearer token and `guestCreatedAt` are unchanged; the guest token is empty
after the call when the last answer was a 200 whose JSON body has no
`guest_token` of string type, and unchanged otherwise. -/
theorem GetGuestToken_failure_keeps_credentials (env : Env) (now : Int) (s : Scraper)
    (herr : (s.GetGuestToken env now).2 ≠ none) :
    (s.GetGuestToken env now).1.bearerToken = s.bearerToken ∧
    (s.GetGuestToken env now).1.guestCreatedAt = s.guestCreatedAt ∧
    ∃ pre last, (s.GetGuestToken env now).1.client.calls = pre ++ [last] ∧
      (LacksToken env (env.transport pre last) →
        (s.GetGuestToken env now).1.guestToken = "") ∧
      (¬ LacksToken env (env.transport pre last) →
        (s.GetGuestToken env now).1.guestToken = s.guestToken) := by
  rw [GetGuestToken_eq_run] at herr ⊢
  obtain ⟨h1, h2, h3⟩ := run_failure env now _ none s herr
  refine ⟨h1, h2, ?_⟩
  rcases h3 with ⟨hc, _⟩ | h3
  · obtain ⟨tried, _, hne, hcalls⟩ :=
      run_calls env now (candidatesFrom (tryTokens env s) []) none s
    have hne' := hne (candidates_ne_nil env s)
    rw [hc] at hcalls
    have := congrArg List.length hcalls
    simp only [List.length_append, List.length_map] at this
    have hl : tried.length = 0 := by omega
    exact absurd (List.length_eq_zero.1 hl) hne'
  · exact h3

/-- Witness of C10: every candidate is answered 401. -/
theorem GetGuestToken_failure_keeps_credentials_witness :
    (guestScraper.GetGuestToken (sampleEnv refuseAll) 0).1.bearerToken =
      guestScraper.bearerToken ∧
    (guestScraper.GetGuestToken (sampleEnv refuseAll) 0).1.guestCreatedAt =
      guestScraper.guestCreatedAt ∧
    ∃ pre last, (guestScraper.GetGuestToken (sampleEnv refuseAll) 0).1.client.calls =
        pre ++ [last] ∧
      (LacksToken (sampleEnv refuseAll) ((sampleEnv refuseAll).transport pre last) →
        (guestScraper.GetGuestToken (sampleEnv refuseAll) 0).1.guestToken = "") ∧
      (¬ LacksToken (sampleEnv refuseAll) ((sampleEnv refuseAll).transport pre last) →
        (guestScraper.GetGuestToken (sampleEnv refuseAll) 0).1.guestToken =
          guestScraper.guestToken) :=
  GetGuestToken_failure_keeps_credentials (sampleEnv refuseAll) 0 guestScraper (by decide)

/-! ## Preparing a request -/

theorem setGuestToken_fresh (env : Env) (now : Int) (s : Scraper) (req : Request)
    (hg : s.guestToken ≠ "") (ht : ¬ s.guestCreatedAt < now + -threeHours) :
    s.setGuestToken env now req =
      (s, { req with Header := req.Header.Set "X-Guest-Token" s.guestToken }, none) := by
  simp [Scraper.setGuestToken, Scraper.IsGuestToken, hg, ht]

theorem setGuestToken_stale (env : Env) (now : Int) (s : Scraper) (req : Request)
    (h : s.guestToken = "" ∨ s.guestCreatedAt < now + -threeHours) :
    s.setGuestToken env now req =
      match s.GetGuestToken env now with
      | (s1, some err) => (s1, req, some err)
      | (s1, none) =>
        (s1, { req with Header := req.Header.Set "X-Guest-Token" s1.guestToken }, none) := by
  have hc : (!s.IsGuestToken || decide (s.guestCreatedAt < now + -threeHours)) = true := by
    rcases h with h | h
    · simp [Scraper.IsGuestToken, h]
    · simp [h]
  simp only [Scraper.setGuestToken, hc, if_true]

theorem setCSRFToken_loop_get (req : Request) (cookies : List Cookie) (k : String)
    (hk : k ≠ "X-CSRF-Token") :
    (setCSRFToken.loop req cookies).Header.Get k = req.Header.Get k := by
  induction cookies with
  | nil => rfl
  | cons c rest ih =>
    rw [setCSRFToken.loop]
    split_ifs
    · exact Get_Set_ne _ _ _ _ hk
    · exact ih

theorem setCSRFToken_get (s : Scraper) (req : Request) (k : String)
    (hk : k ≠ "X-CSRF-Token") : (s.setCSRFToken req).Header.Get k = req.Header.Get k :=
  setCSRFToken_loop_get _ _ _ hk

theorem setAuthorizationHeader_get (env : Env) (s : Scraper) (req : Request) :
    (s.setAuthorizationHeader env req).Header.Get "Authorization" =
      if s.oAuthToken ≠ "" ∧ s.oAuthSecret ≠ "" then env.sign req.Method req.URL
      else "Bearer " ++ s.bearerToken := by
  unfold Scraper.setAuthorizationHeader
  split_ifs <;> exact Get_Set_self _ _ _

theorem setAuthorizationHeader_get_ne (env : Env) (s : Scraper) (req : Request) (k : String)
    (hk : k ≠ "Authorization") :
    (s.setAuthorizationHeader env req).Header.Get k = req.Header.Get k := by
  unfold Scraper.setAuthorizationHeader
  split_ifs <;> exact Get_Set_ne _ _ _ _ hk

/-- The request `prepareRequest` hands on when the guest-token step ends in
scraper `s1` with request `req1`. -/
theorem finish_authorization (env : Env) (s1 : Scraper) (req1 : Request) :
    (s1.setCSRFToken (s1.setAuthorizationHeader env req1)).Header.Get "Authorization" =
      if s1.oAuthToken ≠ "" ∧ s1.oAuthSecret ≠ "" then env.sign req1.Method req1.URL
      else "Bearer " ++ s1.bearerToken := by
  rw [setCSRFToken_get _ _ _ (by decide), setAuthorizationHeader_get]

theorem finish_guest_token (env : Env) (s1 : Scraper) (req1 : Request) :
    (s1.setCSRFToken (s1.setAuthorizationHeader env req1)).Header.Get "X-Guest-Token" =
      req1.Header.Get "X-Guest-Token" := by
  rw [setCSRFToken_get _ _ _ (by decide), setAuthorizationHeader_get_ne _ _ _ _ (by decide)]

theorem prepareRequest_logged (env : Env) (now : Int) (s : Scraper) (req : Request)
    (hl : s.isLogged = true) :
    s.prepareRequest env now req =
      (s, s.setCSRFToken (s.setAuthorizationHeader env
        { req with Header := req.Header.Set "User-Agent" s.userAgent }), none) := by
  simp [Scraper.prepareRequest, hl]

theorem prepareRequest_fresh (env : Env) (now : Int) (s : Scraper) (req : Request)
    (hl : s.isLogged = false) (hg : s.guestToken ≠ "")
    (ht : ¬ s.guestCreatedAt < now + -threeHours) :
    s.prepareRequest env now req =
      (s, s.setCSRFToken (s.setAuthorizationHeader env
        { req with Header :=
            (req.Header.Set "User-Agent" s.userAgent).Set "X-Guest-Token" s.guestToken }),
        none) := by
  simp [Scraper.prepareRequest, hl, setGuestToken_fresh env now s _ hg ht]

theorem prepareRequest_stale (env : Env) (now : Int) (s : Scraper) (req : Request)
    (hl : s.isLogged = false)
    (h : s.guestToken = "" ∨ s.guestCreatedAt < now + -threeHours) :
    s.prepareRequest env now req =
      match s.GetGuestToken env now with
      | (s1, some err) =>
        (s1, { req with Header := req.Header.Set "User-Agent" s.userAgent }, some err)
      | (s1, none) =>
        (s1, s1.setCSRFToken (s1.setAuthorizationHeader env
          { req with Header :=
              (req.Header.Set "User-Agent" s.userAgent).Set "X-Guest-Token" s1.guestToken }),
          none) := by
  simp only [Scraper.prepareRequest, hl, Bool.not_false, if_true,
    setGuestToken_stale env now s _ h]
  rcases hr : s.GetGuestToken env now with ⟨s1, _ | err⟩ <;> rfl

theorem GetGuestToken_calls (env : Env) (now : Int) (s : Scraper) :
    ∃ tried, tried ≠ [] ∧ tried <+: candidatesFrom (tryTokens env s) [] ∧
      (s.GetGuestToken env now).1.client.calls =
        s.client.calls ++ tried.map (activationRequest s.userAgent) := by
  obtain ⟨tried, hp, hne, hc⟩ :=
    run_calls env now (candidatesFrom (tryTokens env s) []) none s
  exact ⟨tried, hne (candidates_ne_nil env s), hp, by rw [GetGuestToken_eq_run]; exact hc⟩

theorem append_map_ne_self {calls : List Request} {tried : List String} {f : String → Request}
    (h : tried ≠ []) : calls ++ tried.map f ≠ calls := by
  intro he
  have := congrArg List.length he
  simp only [List.length_append, List.length_map] at this
  exact h (List.length_eq_zero.1 (by omega))

/-- The calls `prepareRequest` makes are activation calls, and it makes some
exactly when the session is a guest session whose guest token is empty or was
created before `now - 3h`. -/
theorem prepareRequest_calls (env : Env) (now : Int) (s : Scraper) (req : Request) :
    ∃ tried, (s.prepareRequest env now req).1.client.calls =
        s.client.calls ++ tried.map (activationRequest s.userAgent) ∧
      (tried ≠ [] ↔ (s.isLogged = false ∧
        (s.guestToken = "" ∨ s.guestCreatedAt < now + -threeHours))) := by
  cases hl : s.isLogged with
  | true =>
    exact ⟨[], by simp [prepareRequest_logged env now s req hl], by simp⟩
  | false =>
    by_cases h : s.guestToken = "" ∨ s.guestCreatedAt < now + -threeHours
    · obtain ⟨tried, hne, _, hc⟩ := GetGuestToken_calls env now s
      refine ⟨tried, ?_, ⟨fun _ => ⟨rfl, h⟩, fun _ => hne⟩⟩
      rw [prepareRequest_stale env now s req hl h, ← hc]
      rcases hr : s.GetGuestToken env now with ⟨s1, _ | err⟩ <;> rfl
    · have hg : s.guestToken ≠ "" := fun hg => h (Or.inl hg)
      have ht : ¬ s.guestCreatedAt < now + -threeHours := fun ht => h (Or.inr ht)
      refine ⟨[], by simp [prepareRequest_fresh env now s req hl hg ht], ?_⟩
      exact ⟨fun hne => absurd rfl hne, fun hc => absurd hc.2 h⟩

theorem handleResponse_client {α : Type} (s : Scraper) (resp : Response) (target : Target α) :
    (s.handleResponse resp target).1.client = s.client := by
  unfold Scraper.handleResponse
  cases resp.Body with
  | error e => rfl
  | ok content =>
    simp only
    split_ifs
    · rfl
    · cases target with
      | none => rfl
      | some dec => cases hd : dec content <;> simp [hd]
    · cases target with
      | none => rfl
      | some dec => cases hd : dec content <;> simp [hd]

/-- The calls of one `RequestAPI`: the activation calls of `prepareRequest`,
then at most one call, for the request itself. -/
theorem RequestAPI_calls {α : Type} (env : Env) (now : Int) (s : Scraper) (req : Request)
    (target : Target α) :
    ∃ tried sent, sent.length ≤ 1 ∧
      (s.RequestAPI env now req target).1.client.calls =
        s.client.calls ++ tried.map (activationRequest s.userAgent) ++ sent ∧
      (tried ≠ [] ↔ (s.isLogged = false ∧
        (s.guestToken = "" ∨ s.guestCreatedAt < now + -threeHours))) := by
  obtain ⟨tried, hc, hiff⟩ := prepareRequest_calls env now s req
  unfold Scraper.RequestAPI
  rcases hp : s.prepareRequest env now req with ⟨s1, req1, _ | err⟩
  · rw [hp] at hc
    simp only at hc ⊢
    refine ⟨tried, [req1], by simp, ?_, hiff⟩
    cases ht : (s1.client.Do env.transport req1).2 with
    | error e => simp [Client.Do, hc]
    | ok resp => simp [handleResponse_client, Client.Do, hc]
  · rw [hp] at hc
    exact ⟨tried, [], by simp, by simpa using hc, hiff⟩

/-- On a logged-in session `RequestAPI` makes exactly one transport call, for
the prepared request, whatever the answer is. -/
theorem RequestAPI_logged_single_call {α : Type} (env : Env) (now : Int) (s : Scraper)
    (req : Request) (target : Target α) (hl : s.isLogged = true) :
    (s.RequestAPI env now req target).1.client.calls =
      s.client.calls ++ [(s.prepareRequest env now req).2.1] := by
  unfold Scraper.RequestAPI
  rw [prepareRequest_logged env now s req hl]
  simp only
  cases ht : (s.client.Do env.transport _).2 with
  | error e => simp [Client.Do]
  | ok resp => simp [handleResponse_client, Client.Do]

/-! ## Claims on request preparation and response handling -/

/-- C4 (amended). Guest token freshness: on a guest session `prepareRequest`
makes guest activation calls if and only if the guest token is empty or
`now - guestCreatedAt` exceeds 3 hours (a token exactly 3 hours old is reused);
whenever it returns no error the prepared request carries `X-Guest-Token` equal
to the scraper's guest token after the step. -/
theorem prepareRequest_activates_iff (env : Env) (now : Int) (s : Scraper) (req : Request)
    (hguest : s.isLogged = false) :
    ∃ tried, (s.prepareRequest env now req).1.client.calls =
        s.client.calls ++ tried.map (activationRequest s.userAgent) ∧
      (tried ≠ [] ↔ (s.guestToken = "" ∨ now - s.guestCreatedAt > threeHours)) ∧
      ((s.prepareRequest env now req).1.client.calls ≠ s.client.calls ↔
        (s.guestToken = "" ∨ now - s.guestCreatedAt > threeHours)) ∧
      ((s.prepareRequest env now req).2.2 = none →
        (s.prepareRequest env now req).2.1.Header.Get "X-Guest-Token" =
          (s.prepareRequest env now req).1.guestToken) := by
  obtain ⟨tried, hc, hiff⟩ := prepareRequest_calls env now s req
  have hcond : (s.isLogged = false ∧
      (s.guestToken = "" ∨ s.guestCreatedAt < now + -threeHours)) ↔
      (s.guestToken = "" ∨ now - s.guestCreatedAt > threeHours) := by
    constructor
    · rintro ⟨_, h | h⟩
      · exact Or.inl h
      · exact Or.inr (by omega)
    · rintro (h | h)
      · exact ⟨hguest, Or.inl h⟩
      · exact ⟨hguest, Or.inr (by omega)⟩
  refine ⟨tried, hc, hiff.trans hcond, ?_, ?_⟩
  · rw [← hcond, ← hiff, hc]
    constructor
    · intro h ht
      exact h (by simp [ht])
    · intro h
      exact append_map_ne_self h
  · by_cases h : s.guestToken = "" ∨ s.guestCreatedAt < now + -threeHours
    · rw [prepareRequest_stale env now s req hguest h]
      rcases hr : s.GetGuestToken env now with ⟨s1, _ | err⟩
      · intro _
        simp only
        rw [finish_guest_token]
        exact Get_Set_self _ _ _
      · intro he
        simp at he
    · have hg : s.guestToken ≠ "" := fun hg => h (Or.inl hg)
      have ht : ¬ s.guestCreatedAt < now + -threeHours := fun ht => h (Or.inr ht)
      rw [prepareRequest_fresh env now s req hguest hg ht]
      intro _
      simp only
      rw [finish_guest_token]
      exact Get_Set_self _ _ _

/-- Witness of C4 (amended): a guest token exactly 3 hours old. -/
theorem prepareRequest_activates_iff_witness :
    ∃ tried, (tokenScraper.prepareRequest (sampleEnv grantAll) threeHours
          sampleRequest).1.client.calls =
        tokenScraper.client.calls ++ tried.map (activationRequest tokenScraper.userAgent) ∧
      (tried ≠ [] ↔
        (tokenScraper.guestToken = "" ∨ threeHours - tokenScraper.guestCreatedAt > threeHours)) ∧
      ((tokenScraper.prepareRequest (sampleEnv grantAll) threeHours
          sampleRequest).1.client.calls ≠ tokenScraper.client.calls ↔
        (tokenScraper.guestToken = "" ∨ threeHours - tokenScraper.guestCreatedAt > threeHours)) ∧
      ((tokenScraper.prepareRequest (sampleEnv grantAll) threeHours sampleRequest).2.2 = none →
        (tokenScraper.prepareRequest (sampleEnv grantAll) threeHours
            sampleRequest).2.1.Header.Get "X-Guest-Token" =
          (tokenScraper.prepareRequest (sampleEnv grantAll) threeHours
            sampleRequest).1.guestToken) :=
  prepareRequest_activates_iff (sampleEnv grantAll) threeHours tokenScraper sampleRequest rfl

/-- C4 as stated fails: a non-empty guest token that is exactly 3 hours old
meets `now - guestCreatedAt >= 3h`, yet `prepareRequest` makes no activation call. -/
theorem prepareRequest_reuses_token_three_hours_old :
    ¬ ((tokenScraper.prepareRequest (sampleEnv grantAll) threeHours
          sampleRequest).1.client.calls ≠ tokenScraper.client.calls ↔
        (tokenScraper.guestToken = "" ∨
          threeHours - tokenScraper.guestCreatedAt ≥ threeHours)) := by
  decide

/-- C5 (amended). Authorization mode: the request prepared by `prepareRequest`
carries the OAuth1 signature of its method and URL when `oAuthToken` and
`oAuthSecret` are both non-empty, and otherwise `"Bearer "` followed by the
scraper's bearer token; every guest activation request issued by
`GetGuestToken`, directly or inside `prepareRequest`, whether the call
succeeds or fails, carries `"Bearer "` followed by its candidate in either mode. -/
theorem prepareRequest_authorization_mode (env : Env) (now : Int) (s : Scraper)
    (req : Request) :
    ((s.prepareRequest env now req).2.2 = none →
      ((s.oAuthToken ≠ "" ∧ s.oAuthSecret ≠ "") →
        (s.prepareRequest env now req).2.1.Header.Get "Authorization" =
          env.sign req.Method req.URL) ∧
      (¬ (s.oAuthToken ≠ "" ∧ s.oAuthSecret ≠ "") →
        (s.prepareRequest env now req).2.1.Header.Get "Authorization" =
          "Bearer " ++ (s.prepareRequest env now req).1.bearerToken)) ∧
    (∃ tried : List String, (s.prepareRequest env now req).1.client.calls =
        s.client.calls ++ tried.map (activationRequest s.userAgent) ∧
      ∀ tok ∈ tried, (activationRequest s.userAgent tok).Header.Get "Authorization" =
        "Bearer " ++ tok) ∧
    (∃ tried : List String, (s.GetGuestToken env now).1.client.calls =
        s.client.calls ++ tried.map (activationRequest s.userAgent) ∧
      ∀ tok ∈ tried, (activationRequest s.userAgent tok).Header.Get "Authorization" =
        "Bearer " ++ tok) := by
  have hcalls : ∃ tried : List String, (s.prepareRequest env now req).1.client.calls =
        s.client.calls ++ tried.map (activationRequest s.userAgent) ∧
      ∀ tok ∈ tried, (activationRequest s.userAgent tok).Header.Get "Authorization" =
        "Bearer " ++ tok := by
    obtain ⟨tried, hc, _⟩ := prepareRequest_calls env now s req
    exact ⟨tried, hc, fun tok _ => activationRequest_authorization _ _⟩
  have hgcalls : ∃ tried : List String, (s.GetGuestToken env now).1.client.calls =
        s.client.calls ++ tried.map (activationRequest s.userAgent) ∧
      ∀ tok ∈ tried, (activationRequest s.userAgent tok).Header.Get "Authorization" =
        "Bearer " ++ tok := by
    obtain ⟨tried, _, _, hc⟩ := GetGuestToken_calls env now s
    exact ⟨tried, hc, fun tok _ => activationRequest_authorization _ _⟩
  refine ⟨fun hok => ?_, hcalls, hgcalls⟩
  have key : (s.prepareRequest env now req).2.1.Header.Get "Authorization" =
      if s.oAuthToken ≠ "" ∧ s.oAuthSecret ≠ "" then env.sign req.Method req.URL
      else "Bearer " ++ (s.prepareRequest env now req).1.bearerToken := by
    cases hl : s.isLogged with
    | true =>
      rw [prepareRequest_logged env now s req hl]
      exact finish_authorization env s _
    | false =>
      by_cases h : s.guestToken = "" ∨ s.guestCreatedAt < now + -threeHours
      · rw [prepareRequest_stale env now s req hl h] at hok ⊢
        have hf := run_frame env now (candidatesFrom (tryTokens env s) []) none s
        rw [← GetGuestToken_eq_run] at hf
        rcases hr : s.GetGuestToken env now with ⟨s1, _ | err⟩
        · rw [hr] at hf
          simp only at hf ⊢
          rw [finish_authorization, hf.2.2.1, hf.2.2.2.1]
        · rw [hr] at hok
          simp at hok
      · have hg : s.guestToken ≠ "" := fun hg => h (Or.inl hg)
        have ht : ¬ s.guestCreatedAt < now + -threeHours := fun ht => h (Or.inr ht)
        rw [prepareRequest_fresh env now s req hl hg ht]
        exact finish_authorization env s _
  refine ⟨fun h => ?_, fun h => ?_⟩
  · rw [key, if_pos h]
  · rw [key, if_neg h]

/-- Witness of C5 (amended): a guest session with an OAuth key pair, prepared
once against a transport that grants a guest token and once against a
transport that refuses every candidate. -/
theorem prepareRequest_authorization_mode_witness :
    (oauthScraper.prepareRequest (sampleEnv grantAll) 0 sampleRequest).2.1.Header.Get
        "Authorization" = (sampleEnv grantAll).sign sampleRequest.Method sampleRequest.URL ∧
    (oauthScraper.prepareRequest (sampleEnv refuseAll) 0 sampleRequest).2.2 ≠ none ∧
    (oauthScraper.prepareRequest (sampleEnv refuseAll) 0 sampleRequest).1.client.calls.length
      = 4 ∧
    ∃ tried : List String,
      (oauthScraper.prepareRequest (sampleEnv refuseAll) 0 sampleRequest).1.client.calls =
        oauthScraper.client.calls ++ tried.map (activationRequest oauthScraper.userAgent) ∧
      ∀ tok ∈ tried,
        (activationRequest oauthScraper.userAgent tok).Header.Get "Authorization" =
          "Bearer " ++ tok :=
  ⟨((prepareRequest_authorization_mode (sampleEnv grantAll) 0 oauthScraper sampleRequest).1
      (by decide)).1 (by decide), by decide, by decide,
    (prepareRequest_authorization_mode (sampleEnv refuseAll) 0 oauthScraper sampleRequest).2.1⟩

/-- C5 as stated fails: with an OAuth key pair configured, the guest activation
request sent by `GetGuestToken` carries a Bearer header, not the OAuth1
signature of its method and URL. -/
theorem GetGuestToken_uses_bearer_despite_oauth :
    oauthScraper.oAuthToken ≠ "" ∧ oauthScraper.oAuthSecret ≠ "" ∧
    ∃ r ∈ (oauthScraper.GetGuestToken (sampleEnv grantAll) 0).1.client.calls,
      r.Header.Get "Authorization" = "Bearer A" ∧
      r.Header.Get "Authorization" ≠ (sampleEnv grantAll).sign r.Method r.URL := by
  decide

/-- C6 (amended). Rate-limit signal: for a 200 response whose body was read
and whose header `X-Rate-Limit-Remaining` is `"0"`, `handleResponse` leaves the
guest token empty and still returns the current response's result (nil for a
nil target, otherwise the JSON decode result); on a guest session the next
`RequestAPI` call then makes guest activation calls before the at most one
call for the request itself. -/
theorem handleResponse_rate_limit_clears {α β : Type} (env : Env) (now : Int) (s : Scraper)
    (resp : Response) (target : Target α) (content : String) (req : Request)
    (next : Target β) (hbody : resp.Body = .ok content) (hstatus : resp.StatusCode = 200)
    (hlimit : resp.Header.Get "X-Rate-Limit-Remaining" = "0") :
    (s.handleResponse resp target).1.guestToken = "" ∧
    (s.handleResponse resp target).2 =
      (match target with
        | none => .ok none
        | some dec =>
          match dec content with
          | .error e => .error (Err.json e)
          | .ok v => .ok (some v)) ∧
    (s.isLogged = false →
      ∃ tried sent, tried ≠ [] ∧ sent.length ≤ 1 ∧
        ((s.handleResponse resp target).1.RequestAPI env now req next).1.client.calls =
          s.client.calls ++ tried.map (activationRequest s.userAgent) ++ sent) := by
  have hstate : (s.handleResponse resp target).1 = { s with guestToken := "" } := by
    simp only [Scraper.handleResponse, hbody, hstatus, hlimit, ne_eq, not_true_eq_false,
      if_false, if_true]
    cases target with
    | none => rfl
    | some dec => cases hd : dec content <;> simp [hd]
  refine ⟨by rw [hstate], ?_, fun hl => ?_⟩
  · simp only [Scraper.handleResponse, hbody, hstatus, ne_eq, not_true_eq_false, if_false]
    cases target with
    | none => rfl
    | some dec => cases hd : dec content <;> simp [hd]
  · rw [hstate]
    obtain ⟨tried, sent, hlen, hc, hiff⟩ :=
      RequestAPI_calls env now { s with guestToken := "" } req next
    exact ⟨tried, sent, hiff.2 ⟨hl, Or.inl rfl⟩, hlen, hc⟩

/-- Witness of C6 (amended): a guest session receives a rate-limited 200. -/
theorem handleResponse_rate_limit_clears_witness :
    (tokenScraper.handleResponse rateLimitedResponse (none : Target Unit)).1.guestToken = "" ∧
    (tokenScraper.handleResponse rateLimitedResponse (none : Target Unit)).2 = .ok none ∧
    (tokenScraper.isLogged = false →
      ∃ tried sent, tried ≠ [] ∧ sent.length ≤ 1 ∧
        ((tokenScraper.handleResponse rateLimitedResponse (none : Target Unit)).1.RequestAPI
            (sampleEnv grantAll) 0 sampleRequest (none : Target Unit)).1.client.calls =
          tokenScraper.client.calls ++
            tried.map (activationRequest tokenScraper.userAgent) ++ sent) :=
  handleResponse_rate_limit_clears (sampleEnv grantAll) 0 tokenScraper rateLimitedResponse
    none "\x7b\x7d" sampleRequest none rfl rfl (by decide)

/-- C6 as stated fails: a 200 response with `X-Rate-Limit-Remaining: 0` whose
body cannot be read makes `handleResponse` return the read error and keep the
guest token. -/
theorem handleResponse_keeps_token_on_read_error :
    unreadableResponse.StatusCode = 200 ∧
    unreadableResponse.Header.Get "X-Rate-Limit-Remaining" = "0" ∧
    (tokenScraper.handleResponse unreadableResponse (none : Target Unit)).1.guestToken = "g0" ∧
    (tokenScraper.handleResponse unreadableResponse (none : Target Unit)).2 =
      .error (Err.read "unexpected EOF") := by
  refine ⟨by decide, by decide, by decide, rfl⟩

/-! ## Binding of a refresh -/

theorem GetGuestToken_success (env : Env) (now : Int) (s : Scraper)
    (hok : (s.GetGuestToken env now).2 = none) :
    ∃ pre C post T, candidatesFrom (tryTokens env s) [] = pre ++ C :: post ∧
      Grants env (answerAfter env s pre C) T ∧
      (s.GetGuestToken env now).1.client.calls =
        s.client.calls ++ (pre ++ [C]).map (activationRequest s.userAgent) ∧
      (s.GetGuestToken env now).1.bearerToken = C ∧
      (s.GetGuestToken env now).1.guestToken = T ∧
      (s.GetGuestToken env now).1.guestCreatedAt = now := by
  rw [GetGuestToken_eq_run] at hok ⊢
  obtain ⟨pre, C, post, T, hc, _, hg, hcalls, hb, ht, hcr⟩ := run_success env now _ none s hok
  exact ⟨pre, C, post, T, hc, hg, hcalls, hb, ht, hcr⟩

theorem GetGuestToken_frame (env : Env) (now : Int) (s : Scraper) :
    (s.GetGuestToken env now).1.isLogged = s.isLogged ∧
    (s.GetGuestToken env now).1.oAuthToken = s.oAuthToken ∧
    (s.GetGuestToken env now).1.oAuthSecret = s.oAuthSecret := by
  rw [GetGuestToken_eq_run]
  obtain ⟨_, h1, h2, h3, _⟩ := run_frame env now (candidatesFrom (tryTokens env s) []) none s
  exact ⟨h1, h2, h3⟩

/-- A request prepared on a guest session whose guest token has to be
refreshed carries the bearer and the guest token bound by that refresh. -/
theorem prepareRequest_refresh_bound (env : Env) (now : Int) (s : Scraper) (req : Request)
    (hl : s.isLogged = false)
    (hstale : s.guestToken = "" ∨ s.guestCreatedAt < now + -threeHours)
    (hno : ¬ (s.oAuthToken ≠ "" ∧ s.oAuthSecret ≠ ""))
    (hok : (s.GetGuestToken env now).2 = none) :
    (s.prepareRequest env now req).2.2 = none ∧
    (s.prepareRequest env now req).1 = (s.GetGuestToken env now).1 ∧
    (s.prepareRequest env now req).2.1.Header.Get "Authorization" =
      "Bearer " ++ (s.GetGuestToken env now).1.bearerToken ∧
    (s.prepareRequest env now req).2.1.Header.Get "X-Guest-Token" =
      (s.GetGuestToken env now).1.guestToken := by
  obtain ⟨_, hot, hos⟩ := GetGuestToken_frame env now s
  rw [prepareRequest_stale env now s req hl hstale]
  rcases hr : s.GetGuestToken env now with ⟨s1, _ | err⟩
  · rw [hr] at hot hos
    simp only at hot hos
    have hno' : ¬ (s1.oAuthToken ≠ "" ∧ s1.oAuthSecret ≠ "") := by rw [hot, hos]; exact hno
    refine ⟨rfl, rfl, ?_, ?_⟩
    · simp only
      rw [finish_authorization, if_neg hno']
    · simp only
      rw [finish_guest_token]
      exact Get_Set_self _ _ _
  · rw [hr] at hok
    simp at hok

/-- A request prepared without a refresh carries the scraper's bearer, and on
a guest session its guest token. -/
theorem prepareRequest_kept_bound (env : Env) (now : Int) (s : Scraper) (req : Request)
    (hkeep : s.isLogged = true ∨ (s.guestToken ≠ "" ∧ ¬ s.guestCreatedAt < now + -threeHours))
    (hno : ¬ (s.oAuthToken ≠ "" ∧ s.oAuthSecret ≠ "")) :
    (s.prepareRequest env now req).2.2 = none ∧
    (s.prepareRequest env now req).1.client.calls = s.client.calls ∧
    (s.prepareRequest env now req).2.1.Header.Get "Authorization" =
      "Bearer " ++ s.bearerToken ∧
    (s.isLogged = false →
      (s.prepareRequest env now req).2.1.Header.Get "X-Guest-Token" = s.guestToken) := by
  cases hl : s.isLogged with
  | true =>
    rw [prepareRequest_logged env now s req hl]
    refine ⟨rfl, rfl, ?_, fun h => by cases h⟩
    simp only
    rw [finish_authorization, if_neg hno]
  | false =>
    rcases hkeep with h | ⟨hg, ht⟩
    · rw [hl] at h
      cases h
    · rw [prepareRequest_fresh env now s req hl hg ht]
      refine ⟨rfl, rfl, ?_, fun _ => ?_⟩
      · simp only
        rw [finish_authorization, if_neg hno]
      · simp only
        rw [finish_guest_token]
        exact Get_Set_self _ _ _

/-! ## Claims on `GetGuestToken` -/

/-- C2. Bearer binding: when `GetGuestToken` returns nil, its last activation
call, made with a candidate `C`, was answered 200 with a string `guest_token`
`T`; afterwards `bearerToken` is `C`, `guestToken` is `T` and `guestCreatedAt`
is the current time.  With no OAuth key pair configured, the request whose
preparation ran this refresh carries `Authorization = "Bearer " + C` and
`X-Guest-Token = T`, and so does every request prepared afterwards without a
new refresh (logged-in session, or `T` non-empty and at most 3 hours old); a
later preparation that refreshes again carries the candidate and the guest
token bound by that newer refresh. -/
theorem GetGuestToken_binds_bearer (env : Env) (now : Int) (s : Scraper)
    (hok : (s.GetGuestToken env now).2 = none) :
    ∃ pre C post T, candidatesFrom (tryTokens env s) [] = pre ++ C :: post ∧
      Grants env (answerAfter env s pre C) T ∧
      (s.GetGuestToken env now).1.client.calls =
        s.client.calls ++ (pre ++ [C]).map (activationRequest s.userAgent) ∧
      (s.GetGuestToken env now).1.bearerToken = C ∧
      (s.GetGuestToken env now).1.guestToken = T ∧
      (s.GetGuestToken env now).1.guestCreatedAt = now ∧
      (∀ req : Request, s.isLogged = false →
        (s.guestToken = "" ∨ s.guestCreatedAt < now + -threeHours) →
        ¬ (s.oAuthToken ≠ "" ∧ s.oAuthSecret ≠ "") →
        (s.prepareRequest env now req).2.2 = none ∧
        (s.prepareRequest env now req).2.1.Header.Get "Authorization" = "Bearer " ++ C ∧
        (s.prepareRequest env now req).2.1.Header.Get "X-Guest-Token" = T) ∧
      (∀ (later : Int) (req : Request),
        ¬ (s.oAuthToken ≠ "" ∧ s.oAuthSecret ≠ "") →
        ((s.isLogged = true ∨ (T ≠ "" ∧ later - now ≤ threeHours)) →
          ((s.GetGuestToken env now).1.prepareRequest env later req).2.2 = none ∧
          ((s.GetGuestToken env now).1.prepareRequest env later req).2.1.Header.Get
            "Authorization" = "Bearer " ++ C ∧
          (s.isLogged = false →
            ((s.GetGuestToken env now).1.prepareRequest env later req).2.1.Header.Get
              "X-Guest-Token" = T) ∧
          ((s.GetGuestToken env now).1.prepareRequest env later req).1.client.calls =
            (s.GetGuestToken env now).1.client.calls) ∧
        (((s.GetGuestToken env now).1.prepareRequest env later req).2.2 = none →
          (((s.GetGuestToken env now).1.prepareRequest env later req).2.1.Header.Get
              "Authorization" = "Bearer " ++ C ∧
            ((s.GetGuestToken env now).1.prepareRequest env later req).1.client.calls =
              (s.GetGuestToken env now).1.client.calls) ∨
          ∃ pre2 C2 post2 T2,
            candidatesFrom (tryTokens env (s.GetGuestToken env now).1) [] =
              pre2 ++ C2 :: post2 ∧
            Grants env (answerAfter env (s.GetGuestToken env now).1 pre2 C2) T2 ∧
            ((s.GetGuestToken env now).1.prepareRequest env later req).2.1.Header.Get
              "Authorization" = "Bearer " ++ C2 ∧
            ((s.GetGuestToken env now).1.prepareRequest env later req).2.1.Header.Get
              "X-Guest-Token" = T2 ∧
            ((s.GetGuestToken env now).1.prepareRequest env later req).1.bearerToken = C2 ∧
            ((s.GetGuestToken env now).1.prepareRequest env later req).1.guestToken = T2)) := by
  obtain ⟨pre, C, post, T, hc, hg, hcalls, hb, ht, hcr⟩ := GetGuestToken_success env now s hok
  obtain ⟨hlog, hot, hos⟩ := GetGuestToken_frame env now s
  refine ⟨pre, C, post, T, hc, hg, hcalls, hb, ht, hcr, ?_, ?_⟩
  · intro req hl hstale hno
    obtain ⟨h1, _, h3, h4⟩ := prepareRequest_refresh_bound env now s req hl hstale hno hok
    exact ⟨h1, by rw [h3, hb], by rw [h4, ht]⟩
  · intro later req hno
    generalize s.GetGuestToken env now = r at *
    have hno' : ¬ (r.1.oAuthToken ≠ "" ∧ r.1.oAuthSecret ≠ "") := by rw [hot, hos]; exact hno
    refine ⟨fun hfresh => ?_, fun hprep => ?_⟩
    · have hkeep : r.1.isLogged = true ∨
          (r.1.guestToken ≠ "" ∧ ¬ r.1.guestCreatedAt < later + -threeHours) := by
        rcases hfresh with h | ⟨hT, hage⟩
        · exact Or.inl (by rw [hlog]; exact h)
        · exact Or.inr ⟨by rw [ht]; exact hT, by rw [hcr]; omega⟩
      obtain ⟨h1, h2, h3, h4⟩ := prepareRequest_kept_bound env later r.1 req hkeep hno'
      exact ⟨h1, by rw [h3, hb], fun hl => by rw [h4 (by rw [hlog]; exact hl), ht], h2⟩
    · by_cases hkeep : r.1.isLogged = true ∨
          (r.1.guestToken ≠ "" ∧ ¬ r.1.guestCreatedAt < later + -threeHours)
      · obtain ⟨_, h2, h3, _⟩ := prepareRequest_kept_bound env later r.1 req hkeep hno'
        exact Or.inl ⟨by rw [h3, hb], h2⟩
      · have hl : r.1.isLogged = false := by
          cases h : r.1.isLogged with
          | true => exact absurd (Or.inl h) hkeep
          | false => rfl
        have hstale : r.1.guestToken = "" ∨ r.1.guestCreatedAt < later + -threeHours := by
          by_contra hcon
          push_neg at hcon
          exact hkeep (Or.inr ⟨hcon.1, not_lt.2 hcon.2⟩)
        have hok2 : (r.1.GetGuestToken env later).2 = none := by
          rw [prepareRequest_stale env later r.1 req hl hstale] at hprep
          rcases hr : r.1.GetGuestToken env later with ⟨s1, _ | err⟩
          · rfl
          · rw [hr] at hprep
            simp at hprep
        obtain ⟨pre2, C2, post2, T2, hc2, hg2, _, hb2, ht2, _⟩ :=
          GetGuestToken_success env later r.1 hok2
        obtain ⟨_, h2, h3, h4⟩ :=
          prepareRequest_refresh_bound env later r.1 req hl hstale hno' hok2
        exact Or.inr ⟨pre2, C2, post2, T2, hc2, hg2, by rw [h3, hb2], by rw [h4, ht2],
          by rw [h2, hb2], by rw [h2, ht2]⟩

/-- Witness of C2: the first refresh binds candidate `A` with guest token `g1`;
the request prepared four hours later refreshes again, `A` is then answered
401, and the request carries candidate `BT1` with the guest token `g2` that
`BT1` activated. -/
theorem GetGuestToken_binds_bearer_witness :
    (guestScraper.GetGuestToken (sampleEnv rotateAfterFirst) 0).1.bearerToken = "A" ∧
    (guestScraper.GetGuestToken (sampleEnv rotateAfterFirst) 0).1.guestToken = "g1" ∧
    ((guestScraper.GetGuestToken (sampleEnv rotateAfterFirst) 0).1.prepareRequest
      (sampleEnv rotateAfterFirst) fourHours sampleRequest).2.1.Header.Get "Authorization" =
        "Bearer BT1" ∧
    ((guestScraper.GetGuestToken (sampleEnv rotateAfterFirst) 0).1.prepareRequest
      (sampleEnv rotateAfterFirst) fourHours sampleRequest).2.1.Header.Get "X-Guest-Token" =
        "g2" ∧
    ∃ pre C post T,
      candidatesFrom (tryTokens (sampleEnv rotateAfterFirst) guestScraper) [] =
        pre ++ C :: post ∧
      Grants (sampleEnv rotateAfterFirst)
        (answerAfter (sampleEnv rotateAfterFirst) guestScraper pre C) T ∧
      (guestScraper.GetGuestToken (sampleEnv rotateAfterFirst) 0).1.bearerToken = C ∧
      (guestScraper.GetGuestToken (sampleEnv rotateAfterFirst) 0).1.guestToken = T ∧
      (guestScraper.GetGuestToken (sampleEnv rotateAfterFirst) 0).1.guestCreatedAt = 0 ∧
      ((guestScraper.prepareRequest (sampleEnv rotateAfterFirst) 0
          sampleRequest).2.1.Header.Get "Authorization" = "Bearer " ++ C ∧
        (guestScraper.prepareRequest (sampleEnv rotateAfterFirst) 0
          sampleRequest).2.1.Header.Get "X-Guest-Token" = T) := by
  refine ⟨by decide, by decide, by decide, by decide, ?_⟩
  obtain ⟨pre, C, post, T, h1, h2, _, h4, h5, h6, h7, _⟩ :=
    GetGuestToken_binds_bearer (sampleEnv rotateAfterFirst) 0 guestScraper (by decide)
  exact ⟨pre, C, post, T, h1, h2, h4, h5, h6,
    (h7 sampleRequest rfl (Or.inl rfl) (by decide)).2⟩

/-- C3 (amended). `GetGuestToken` moves on to the next candidate only after a
transport error or a non-200 answer whose body was read.  It returns nil
exactly when some candidate is answered 200 with a JSON object holding a
string `guest_token` and every candidate before it is answered with a
transport error or such a non-200 answer.  A candidate answered 200 with a body that is not valid JSON ends the
call with that decoding error, one answered 200 with a JSON object lacking a
string `guest_token` ends it with the error `guest_token not found`, and one
whose body cannot be read ends it with that read error: at once, the later
candidates untried. -/
theorem GetGuestToken_first_200_decides (env : Env) (now : Int) (s : Scraper) :
    ((s.GetGuestToken env now).2 = none ↔
      ∃ pre C post T, candidatesFrom (tryTokens env s) [] = pre ++ C :: post ∧
        RetryAll env s.userAgent s.client.calls pre ∧
        Grants env (answerAfter env s pre C) T) ∧
    (∀ pre C post, candidatesFrom (tryTokens env s) [] = pre ++ C :: post →
      RetryAll env s.userAgent s.client.calls pre →
      (∀ e, NotJSON env (answerAfter env s pre C) e →
        (s.GetGuestToken env now).2 = some (Err.json e) ∧
        (s.GetGuestToken env now).1.client.calls =
          s.client.calls ++ (pre ++ [C]).map (activationRequest s.userAgent)) ∧
      (LacksToken env (answerAfter env s pre C) →
        (s.GetGuestToken env now).2 = some (Err.errorf "guest_token not found") ∧
        (s.GetGuestToken env now).1.client.calls =
          s.client.calls ++ (pre ++ [C]).map (activationRequest s.userAgent)) ∧
      (∀ e, ReadFails (answerAfter env s pre C) e →
        (s.GetGuestToken env now).2 = some (Err.read e) ∧
        (s.GetGuestToken env now).1.client.calls =
          s.client.calls ++ (pre ++ [C]).map (activationRequest s.userAgent))) := by
  rw [GetGuestToken_eq_run]
  refine ⟨run_none_iff env now _ none s, ?_⟩
  intro pre C post hc hr
  rw [hc]
  refine ⟨fun e he => ?_, fun hl => ?_, fun e he => ?_⟩
  · exact run_stops env now pre C post none s _ _ hr (verdict_of_notJSON he)
  · exact run_stops env now pre C post none s _ _ hr (verdict_of_lacks hl)
  · exact run_stops env now pre C post none s _ _ hr (verdict_of_readFails he)

/-- Witness of C3 (amended): the first candidate is answered 200 with a body
that is not JSON. -/
theorem GetGuestToken_first_200_decides_witness :
    (guestScraper.GetGuestToken (sampleEnv garbageForA) 0).2 =
      some (Err.json "invalid character") ∧
    (guestScraper.GetGuestToken (sampleEnv garbageForA) 0).1.client.calls =
      guestScraper.client.calls ++ ([] ++ ["A"]).map (activationRequest guestScraper.userAgent) :=
  ((GetGuestToken_first_200_decides (sampleEnv garbageForA) 0 guestScraper).2
    [] "A" ["BT1", "BT2", bearerToken] (by decide) trivial).1 "invalid character"
    ⟨okResponse "nope", "nope", rfl, rfl, rfl, rfl⟩

/-- C3 as stated fails: candidate `BT1` of the try list is answered 200 with a
string `guest_token`, but the earlier candidate `A` is answered 200 with a body
that is not JSON, and `GetGuestToken` returns that decoding error after a single
call. -/
theorem GetGuestToken_gives_up_on_malformed_body :
    "BT1" ∈ tryTokens (sampleEnv garbageForA) guestScraper ∧
    Grants (sampleEnv garbageForA)
      (answerAfter (sampleEnv garbageForA) guestScraper ["A"] "BT1") "g1" ∧
    NotJSON (sampleEnv garbageForA)
      (answerAfter (sampleEnv garbageForA) guestScraper [] "A") "invalid character" ∧
    (guestScraper.GetGuestToken (sampleEnv garbageForA) 0).2 =
      some (Err.json "invalid character") ∧
    (guestScraper.GetGuestToken (sampleEnv garbageForA) 0).1.client.calls =
      [activationRequest "UA" "A"] := by
  refine ⟨by decide, ?_, ?_, by decide, by decide⟩
  · exact ⟨okResponse bodyG1, bodyG1, _, rfl, rfl, rfl, rfl, rfl⟩
  · exact ⟨okResponse "nope", "nope", rfl, rfl, rfl, rfl⟩

/-! ## Claim on the normalizer -/

/-- C8 (amended). Variant shape equivalence: for every entry `E` and focal id
`f`, `parse(f)` gives the same result on the payload whose single instruction
is `{type: TimelineAddEntry, entry: E}` as on the payload whose single
instruction is `{type: TimelineAddEntries, entries: [E]}`; when `E` is of tweet
kind, its required fields can be extracted (a non-empty `id_str`, a creation
time in the date format) and its legacy `id_str` is the focal id `f`, the
tweet list has exactly one element, whose ID is `f`, and that tweet is the
focal match. -/
theorem parse_entry_eq_entries (n : Normalizer) (E : Entry) (f : String) :
    threadedConversation.parse n
        { instructions := [{ type := "TimelineAddEntry", entry := some E, entries := [] }] } f =
      threadedConversation.parse n
        { instructions := [{ type := "TimelineAddEntries", entry := none, entries := [E] }] } f ∧
    (∀ t, n.tweetKind E = true → n.parseTime E.legacy.created_at = some t →
      E.legacy.id_str = f → f ≠ "" →
      ∃ tw, tw.ID = f ∧
        threadedConversation.parse n
          { instructions := [{ type := "TimelineAddEntry", entry := some E, entries := [] }] }
          f = ([tw], some tw) ∧
        threadedConversation.parse n
          { instructions := [{ type := "TimelineAddEntries", entry := none, entries := [E] }] }
          f = ([tw], some tw)) := by
  refine ⟨rfl, fun t hk ht hid hf => ?_⟩
  have hne : E.legacy.id_str ≠ "" := by rw [hid]; exact hf
  have hx : n.extract E = some
      { ID := E.legacy.id_str
        ConversationID := E.legacy.conversation_id_str
        UserID := E.legacy.user_id_str
        Timestamp := t
        Text := E.legacy.full_text
        User := { ID := E.user.id_str, Username := E.user.screen_name, Name := E.user.name } } := by
    simp [Normalizer.extract, hk, hne, ht]
  refine ⟨
      { ID := E.legacy.id_str
        ConversationID := E.legacy.conversation_id_str
        UserID := E.legacy.user_id_str
        Timestamp := t
        Text := E.legacy.full_text
        User := { ID := E.user.id_str, Username := E.user.screen_name, Name := E.user.name } },
      hid, ?_, ?_⟩ <;>
    simp [threadedConversation.parse, Instruction.normalized, List.filterMap, hx, hf,
      List.find?, hid]

/-- Witness of C8 (amended) on the payload of
`TestThreadedConversationParse_SupportsInstructionEntry`. -/
theorem parse_entry_eq_entries_witness :
    ∃ tw, tw.ID = "2001787100006690996" ∧
      threadedConversation.parse sampleNormalizer
        { instructions :=
            [{ type := "TimelineAddEntry", entry := some sampleEntry, entries := [] }] }
        "2001787100006690996" = ([tw], some tw) ∧
      threadedConversation.parse sampleNormalizer
        { instructions :=
            [{ type := "TimelineAddEntries", entry := none, entries := [sampleEntry] }] }
        "2001787100006690996" = ([tw], some tw) :=
  (parse_entry_eq_entries sampleNormalizer sampleEntry "2001787100006690996").2
    1136239445 rfl rfl rfl (by decide)

/-- C8 as stated fails: a tweet-kind entry whose legacy `id_str` is the focal
id but whose creation time is not in the date format is skipped, so both
shapes of the payload give the empty tweet list, not a one-element list. -/
theorem parse_skips_undated_entry :
    sampleNormalizer.tweetKind undatedEntry = true ∧
    undatedEntry.legacy.id_str = "2001787100006690996" ∧
    threadedConversation.parse sampleNormalizer
      { instructions :=
          [{ type := "TimelineAddEntry", entry := some undatedEntry, entries := [] }] }
      "2001787100006690996" = ([], none) ∧
    threadedConversation.parse sampleNormalizer
      { instructions :=
          [{ type := "TimelineAddEntries", entry := none, entries := [undatedEntry] }] }
      "2001787100006690996" = ([], none) := by
  decide

end TwitterScraper
